import Mathlib

/-!
N-body benchmark: the force pass, the position pass, the step loop, the
argument reading of the two entry points and the initializer.

A shallow embedding of `src/c_impl/nbody.c` (and of the loop inlined in
`run_simulation` of `src/cpp_impl/nbody.cpp`, whose body is the same text).

Arithmetic.  The C type `double` is a parameter `R` of the embedding.  The
definitions use only the operations the source uses (`+ - * /`, decimal
literals and `sqrt`, the last one passed as an argument), so they can be run
on any carrier that has them.  Statements that only depend on the order of
reads and writes are proved for every such carrier, with no law of
arithmetic assumed.  Statements that need algebra are proved over a field
(exact arithmetic), and the numeric scenario over the real numbers with
`Real.sqrt`.

Memory.  The pair `Planet* planets, int n` is a list of bodies together with
the count `n`; `planets[i]` is `body planets i` and an assignment to fields of
`planets[i]` is `List.set`.  The loop counters `i`, `j`, `s` only take the
values `0, 1, ..., bound - 1`, so a loop `for (k = 0; k < bound; k++)` is a
left fold over `List.range bound.toNat` (no iteration for `bound ≤ 0`).

Entry points.  `argv` is the list of the `argc` argument strings, the program
name first.  The library conversions `atoi` and `std::stoi` are arguments of
the embedding (`none` for a call of `std::stoi` that throws); `atoi` and
`stoi` below are models on decimal text, used to run the code on given
command lines.

Initializer.  The pseudo-random generator is an explicit state: a call of
`rand()`, or of a distribution on `gen`, takes a state and returns a value and
the next state.  These calls and `RAND_MAX` are arguments of the embedding.
-/

namespace NBody

/-- The record `Planet` of the source: position, velocity and mass. -/
structure Planet (R : Type) where
  x : R
  y : R
  z : R
  vx : R
  vy : R
  vz : R
  mass : R

section Embedding

variable {R : Type} [Add R] [Sub R] [Mul R] [Div R] [OfScientific R]

/-- The value read at an index outside the list; never reached when the count
passed to the loops is the length of the list. -/
instance : Inhabited (Planet R) := ⟨⟨0.0, 0.0, 0.0, 0.0, 0.0, 0.0, 0.0⟩⟩

/-- The read `planets[i]`. -/
def body (planets : List (Planet R)) (i : Nat) : Planet R :=
  planets.getD i default

/-- The constant `soft_epsilon = 1e-9` of `compute_forces`. -/
def soft_epsilon : R := 1e-9

/-- The body of the inner loop of `compute_forces` (nbody.c lines 22-34): one
pass of `for j` with the accumulators `(fx, fy, fz)` as state.  `p1x, p1y,
p1z` are the locals read from `planets[i]` before the loop. -/
def force_term (sqrt : R → R) (planets : List (Planet R)) (i : Nat) (p1x p1y p1z : R)
    (acc : R × R × R) (j : Nat) : R × R × R :=
  if i = j then acc
  else
    let dx := (body planets j).x - p1x
    let dy := (body planets j).y - p1y
    let dz := (body planets j).z - p1z
    let dist_sq := dx * dx + dy * dy + dz * dz + soft_epsilon
    let dist := sqrt dist_sq
    let f := (body planets j).mass / (dist_sq * dist)
    (acc.1 + f * dx, acc.2.1 + f * dy, acc.2.2 + f * dz)

/-- Lines 16-35 of `compute_forces`: the accumulators `(fx, fy, fz)` of body
`i` after the inner loop `for (j = 0; j < n; j++)`, started from `0.0`. -/
def force_on (sqrt : R → R) (planets : List (Planet R)) (n : Int) (i : Nat) : R × R × R :=
  let p1x := (body planets i).x
  let p1y := (body planets i).y
  let p1z := (body planets i).z
  (List.range n.toNat).foldl (force_term sqrt planets i p1x p1y p1z) (0.0, 0.0, 0.0)

/-- Lines 37-39 of `compute_forces`: `vx += fx * dt; vy += fy * dt; vz += fz * dt`
on one record. -/
def kick (p : Planet R) (f : R × R × R) (dt : R) : Planet R :=
  { p with vx := p.vx + f.1 * dt, vy := p.vy + f.2.1 * dt, vz := p.vz + f.2.2 * dt }

/-- One pass of the outer loop of `compute_forces` (lines 16-39) on the array as
it is at that moment: the accumulators are computed from the current array,
then the velocity of `planets[i]` is written in place. -/
def compute_forces_body (sqrt : R → R) (n : Int) (dt : R) (planets : List (Planet R))
    (i : Nat) : List (Planet R) :=
  planets.set i (kick (body planets i) (force_on sqrt planets n i) dt)

/-- The function `compute_forces(planets, n, dt)` of nbody.c (lines 12-41). -/
def compute_forces (sqrt : R → R) (planets : List (Planet R)) (n : Int) (dt : R) :
    List (Planet R) :=
  (List.range n.toNat).foldl (compute_forces_body sqrt n dt) planets

/-- Lines 45-47 of `update_positions`: `x += vx * dt; y += vy * dt; z += vz * dt`
on one record. -/
def drift (p : Planet R) (dt : R) : Planet R :=
  { p with x := p.x + p.vx * dt, y := p.y + p.vy * dt, z := p.z + p.vz * dt }

/-- The function `update_positions(planets, n, dt)` of nbody.c (lines 43-49). -/
def update_positions (planets : List (Planet R)) (n : Int) (dt : R) : List (Planet R) :=
  (List.range n.toNat).foldl (fun ps i => ps.set i (drift (body ps i) dt)) planets

/-- One pass of the step loop of `main` (lines 85-86): `compute_forces` and
then `update_positions` on the same array. -/
def step (sqrt : R → R) (planets : List (Planet R)) (n : Int) (dt : R) : List (Planet R) :=
  update_positions (compute_forces sqrt planets n dt) n dt

/-- The step loop `for (s = 0; s < steps; s++)` with a given `dt`. -/
def step_loop (sqrt : R → R) (planets : List (Planet R)) (n steps : Int) (dt : R) :
    List (Planet R) :=
  (List.range steps.toNat).foldl (fun ps _ => step sqrt ps n dt) planets

/-- Lines 83-87 of `main`: `double dt = 0.01;` followed by the step loop. -/
def main_loop (sqrt : R → R) (planets : List (Planet R)) (n steps : Int) : List (Planet R) :=
  step_loop sqrt planets n steps 0.01

/-! Reference definitions written after the specification (sections 4.2 to 4.4
and 8), to be compared with the embedding of the code above. -/

/-- The Force Evaluator of the specification: a read-only pass over the store
that produces the accumulator of every body `0, ..., n - 1`. -/
def force_evaluator (sqrt : R → R) (planets : List (Planet R)) (n : Int) : List (R × R × R) :=
  (List.range n.toNat).map (fun i => force_on sqrt planets n i)

/-- The velocity update pass of the specification: for every body `i`,
`vx += fx_i * dt`, `vy += fy_i * dt`, `vz += fz_i * dt`, the accumulators
being given. -/
def velocity_pass (planets : List (Planet R)) (acc : List (R × R × R)) (n : Int) (dt : R) :
    List (Planet R) :=
  (List.range n.toNat).foldl
    (fun ps i => ps.set i
      { body ps i with
        vx := (body ps i).vx + (acc.getD i (0.0, 0.0, 0.0)).1 * dt
        vy := (body ps i).vy + (acc.getD i (0.0, 0.0, 0.0)).2.1 * dt
        vz := (body ps i).vz + (acc.getD i (0.0, 0.0, 0.0)).2.2 * dt }) planets

/-- The position update pass of the specification: for every body `i`,
`x += vx * dt`, `y += vy * dt`, `z += vz * dt`. -/
def position_pass (planets : List (Planet R)) (n : Int) (dt : R) : List (Planet R) :=
  (List.range n.toNat).foldl
    (fun ps i => ps.set i
      { body ps i with
        x := (body ps i).x + (body ps i).vx * dt
        y := (body ps i).y + (body ps i).vy * dt
        z := (body ps i).z + (body ps i).vz * dt }) planets

/-- The two-phase step of the specification: all accumulators are computed
from the store as it is before the step, then the velocity pass runs, then the
position pass. -/
def step_two_phase (sqrt : R → R) (planets : List (Planet R)) (n : Int) (dt : R) :
    List (Planet R) :=
  position_pass (velocity_pass planets (force_evaluator sqrt planets n) n dt) n dt

/-- The step with the two passes exchanged (specification, section 8): the
same accumulators, the position pass first and the velocity pass second. -/
def step_position_first (sqrt : R → R) (planets : List (Planet R)) (n : Int) (dt : R) :
    List (Planet R) :=
  velocity_pass (position_pass planets n dt) (force_evaluator sqrt planets n) n dt

/-- The store of the end-to-end scenario of the specification: body 0 at
`(0, 0, 0)`, body 1 at `(10, 0, 0)`, both masses `1.0`, zero velocities. -/
def scenario : List (Planet R) :=
  [⟨0.0, 0.0, 0.0, 0.0, 0.0, 0.0, 1.0⟩, ⟨10.0, 0.0, 0.0, 0.0, 0.0, 0.0, 1.0⟩]

/-- Two records with the same position and mass. -/
def same_place (p q : Planet R) : Prop :=
  p.x = q.x ∧ p.y = q.y ∧ p.z = q.z ∧ p.mass = q.mass

end Embedding

section ExactDefinitions

variable {R : Type} [Field R]

/-- The softened squared distance of the specification:
`|position(j) - position(i)|^2 + eps` with `eps = 1e-9`. -/
def r2 (planets : List (Planet R)) (i j : Nat) : R :=
  ((body planets j).x - (body planets i).x) ^ 2 + ((body planets j).y - (body planets i).y) ^ 2
    + ((body planets j).z - (body planets i).z) ^ 2 + 1e-9

/-- The pairwise term of the specification along one coordinate, `d` being that
coordinate of `position(j) - position(i)`: `mass(j) * d / (r2 * sqrt r2)`. -/
def pair_term (sqrt : R → R) (planets : List (Planet R)) (i j : Nat) (d : R) : R :=
  (body planets j).mass * d / (r2 planets i j * sqrt (r2 planets i j))

end ExactDefinitions

section PairLocals

variable {R : Type} [Add R] [Sub R] [Mul R] [Div R] [OfScientific R]

/-- The local `dist_sq` of `compute_forces` for the pair `(i, j)` (nbody.c lines
24-28): `dx*dx + dy*dy + dz*dz + soft_epsilon` with `dx = planets[j].x - planets[i].x`
and likewise `dy`, `dz`. -/
def dist_sq (planets : List (Planet R)) (i j : Nat) : R :=
  let dx := (body planets j).x - (body planets i).x
  let dy := (body planets j).y - (body planets i).y
  let dz := (body planets j).z - (body planets i).z
  dx * dx + dy * dy + dz * dz + soft_epsilon

/-- The loop of `run_simulation` (nbody.cpp lines 32-72), with the force
calculation and the position update inlined as they are in the source. -/
def run_simulation_loop (sqrt : R → R) (planets : List (Planet R)) (n steps : Int) :
    List (Planet R) :=
  let dt : R := 0.01
  let eps : R := 1e-9
  (List.range steps.toNat).foldl
    (fun planets _ =>
      let planets := (List.range n.toNat).foldl
        (fun planets i =>
          let p1x := (body planets i).x
          let p1y := (body planets i).y
          let p1z := (body planets i).z
          let f := (List.range n.toNat).foldl
            (fun (acc : R × R × R) j =>
              if i = j then acc
              else
                let dx := (body planets j).x - p1x
                let dy := (body planets j).y - p1y
                let dz := (body planets j).z - p1z
                let dsq := dx * dx + dy * dy + dz * dz + eps
                let dist := sqrt dsq
                let f := (body planets j).mass / (dsq * dist)
                (acc.1 + f * dx, acc.2.1 + f * dy, acc.2.2 + f * dz))
            (0.0, 0.0, 0.0)
          planets.set i
            { body planets i with
              vx := (body planets i).vx + f.1 * dt
              vy := (body planets i).vy + f.2.1 * dt
              vz := (body planets i).vz + f.2.2 * dt })
        planets
      (List.range n.toNat).foldl
        (fun planets i =>
          planets.set i
            { body planets i with
              x := (body planets i).x + (body planets i).vx * dt
              y := (body planets i).y + (body planets i).vy * dt
              z := (body planets i).z + (body planets i).vz * dt })
        planets)
    planets

end PairLocals

section EntryPoints

/-- The read `argv[i]`. -/
def arg (argv : List String) (i : Nat) : String :=
  argv.getD i ""

/-- One pass of the flag loop of the C `main` (nbody.c lines 61-62) on the pair
`(n, steps)`. -/
def c_flag_step (atoi : String → Int) (argv : List String) (st : Int × Int) (i : Nat) :
    Int × Int :=
  let n := if arg argv i = "--n" ∧ i + 1 < argv.length then atoi (arg argv (i + 1)) else st.1
  let steps :=
    if arg argv i = "--steps" ∧ i + 1 < argv.length then atoi (arg argv (i + 1)) else st.2
  (n, steps)

/-- The flag loop `for (int i = 1; i < argc; i++)` of the C `main` (lines 60-63),
started from the pair `(n, steps)` it finds. -/
def c_flag_loop (atoi : String → Int) (argv : List String) (st : Int × Int) : Int × Int :=
  (List.range' 1 (argv.length - 1)).foldl (c_flag_step atoi argv) st

/-- Lines 52-63 of the C `main`: the pair `(n, steps)` after the defaults, the
two positional reads and the flag loop.  `argv` holds `argc` strings, the
program name first. -/
def c_main_args (atoi : String → Int) (argv : List String) : Int × Int :=
  let n : Int := 100
  let steps : Int := 100
  let n := if argv.length > 1 then atoi (arg argv 1) else n
  let steps := if argv.length > 2 then atoi (arg argv 2) else steps
  c_flag_loop atoi argv (n, steps)

/-- One pass of the flag loop of the C++ `main` (nbody.cpp lines 86-87).
`std::stoi` throws when no conversion can be made; `none` stands for the
exception, which nothing catches. -/
def cpp_flag_step (stoi : String → Option Int) (argv : List String)
    (st : Option (Int × Int)) (i : Nat) : Option (Int × Int) :=
  match st with
  | none => none
  | some (n, steps) =>
    match (if arg argv i = "--n" ∧ i + 1 < argv.length then stoi (arg argv (i + 1))
        else some n) with
    | none => none
    | some n1 =>
      match (if arg argv i = "--steps" ∧ i + 1 < argv.length then stoi (arg argv (i + 1))
          else some steps) with
      | none => none
      | some s1 => some (n1, s1)

/-- Lines 82-88 of the C++ `main`: the pair `(n, steps)` after the defaults and
the flag loop, or `none` when `std::stoi` has thrown. -/
def cpp_main_args (stoi : String → Option Int) (argv : List String) : Option (Int × Int) :=
  (List.range' 1 (argv.length - 1)).foldl (cpp_flag_step stoi argv) (some (100, 100))

/-- The C library predicate `isspace` in the C locale: the space, and the
control characters of codes 9 to 13 (horizontal tab, new line, vertical tab,
form feed, carriage return). -/
def isspace (c : Char) : Bool :=
  c = ' ' || (9 ≤ c.toNat && c.toNat ≤ 13)

/-- A model of the C library function `atoi` on decimal text: leading white
space (`isspace`) is skipped, one sign is accepted, the digits that follow are
read, and the value is `0` when there is no digit.  The value is the
mathematical one: for text whose value does not fit `int` the C standard
leaves the behaviour of `atoi` undefined, and no statement below evaluates the
model on such text. -/
def atoi (s : String) : Int :=
  let cs := s.toList.dropWhile isspace
  let signed : Bool × List Char :=
    match cs with
    | '-' :: t => (true, t)
    | '+' :: t => (false, t)
    | _ => (false, cs)
  let v : Int := (signed.2.takeWhile Char.isDigit).foldl
    (fun a c => 10 * a + ((c.toNat : Int) - 48)) 0
  if signed.1 then -v else v

/-- A model of `std::stoi` on decimal text: as `atoi`, but the call throws
(`none`) when there is no digit to read (`std::invalid_argument`) and when the
value read does not fit a 32-bit `int` (`std::out_of_range`). -/
def stoi (s : String) : Option Int :=
  let cs := s.toList.dropWhile isspace
  let ds : List Char :=
    match cs with
    | '-' :: t => t
    | '+' :: t => t
    | _ => cs
  if (ds.takeWhile Char.isDigit).isEmpty then none
  else if atoi s < -2147483648 ∨ 2147483647 < atoi s then none
  else some (atoi s)

/-- Specification, section 6: `k` is the last place of `argv` where `flag`
stands with a value after it (`1 ≤ k`, `k + 1 < argc`). -/
def last_valued_occurrence (flag : String) (argv : List String) (k : Nat) : Prop :=
  1 ≤ k ∧ k + 1 < argv.length ∧ arg argv k = flag
    ∧ ∀ k', k' < argv.length → k < k' → k' + 1 < argv.length → arg argv k' ≠ flag

instance (flag : String) (argv : List String) (k : Nat) :
    Decidable (last_valued_occurrence flag argv k) := by
  unfold last_valued_occurrence
  infer_instance

end EntryPoints

section Initializer

variable {R : Type} [Add R] [Sub R] [Mul R] [Div R] [Neg R] [OfScientific R] [IntCast R]
variable {G : Type}

/-- The expression `((double)rand() / RAND_MAX) * 200.0 - 100.0` (nbody.c lines
72-74) for the value `r` returned by `rand()`. -/
def c_position (RAND_MAX r : Int) : R :=
  ((r : R) / (RAND_MAX : R)) * 200.0 - 100.0

/-- The expression `((double)rand() / RAND_MAX) * 2.0 - 1.0` (lines 75-77). -/
def c_velocity (RAND_MAX r : Int) : R :=
  ((r : R) / (RAND_MAX : R)) * 2.0 - 1.0

/-- The expression `((double)rand() / RAND_MAX) * 9.0 + 1.0` (line 78). -/
def c_mass (RAND_MAX r : Int) : R :=
  ((r : R) / (RAND_MAX : R)) * 9.0 + 1.0

/-- One pass of the initialization loop of the C `main` (lines 72-78).  The
generator is a state `g`; a call of `rand()` is `rand g`, the value returned
and the next state.  The seven statements run in the order of the source and
write the seven fields of `planets[i]`. -/
def c_init_body (rand : G → Int × G) (RAND_MAX : Int) (st : G × List (Planet R)) (i : Nat) :
    G × List (Planet R) :=
  let c1 := rand st.1
  let x : R := c_position RAND_MAX c1.1
  let c2 := rand c1.2
  let y : R := c_position RAND_MAX c2.1
  let c3 := rand c2.2
  let z : R := c_position RAND_MAX c3.1
  let c4 := rand c3.2
  let vx : R := c_velocity RAND_MAX c4.1
  let c5 := rand c4.2
  let vy : R := c_velocity RAND_MAX c5.1
  let c6 := rand c5.2
  let vz : R := c_velocity RAND_MAX c6.1
  let c7 := rand c6.2
  let mass : R := c_mass RAND_MAX c7.1
  (c7.2, st.2.set i ⟨x, y, z, vx, vy, vz, mass⟩)

/-- Lines 71-79 of the C `main`: the initialization loop on the block `planets`
returned by `malloc`, from the generator state `g` left by `srand(42)`. -/
def c_init (rand : G → Int × G) (RAND_MAX : Int) (planets : List (Planet R)) (n : Int)
    (g : G) : G × List (Planet R) :=
  (List.range n.toNat).foldl (c_init_body rand RAND_MAX) (g, planets)

/-- One pass of the initialization loop of `run_simulation` (nbody.cpp lines
23-29).  A call `dist(gen)` of a `std::uniform_real_distribution<>(a, b)` is
`sample a b g`, the value returned and the next state of `gen`. -/
def cpp_init_body (sample : R → R → G → R × G) (lo_pos hi_pos lo_vel hi_vel lo_mass hi_mass : R)
    (st : G × List (Planet R)) (i : Nat) : G × List (Planet R) :=
  let c1 := sample lo_pos hi_pos st.1
  let c2 := sample lo_pos hi_pos c1.2
  let c3 := sample lo_pos hi_pos c2.2
  let c4 := sample lo_vel hi_vel c3.2
  let c5 := sample lo_vel hi_vel c4.2
  let c6 := sample lo_vel hi_vel c5.2
  let c7 := sample lo_mass hi_mass c6.2
  (c7.2, st.2.set i ⟨c1.1, c2.1, c3.1, c4.1, c5.1, c6.1, c7.1⟩)

/-- Lines 16-30 of `run_simulation`: the vector of `n` records and the
initialization loop, from the state `g` of `std::mt19937 gen(42)`.  The
bounds of the three distributions are those of lines 17-19.  This is the
function for `0 ≤ n`; for `n < 0` the constructor `planets(n)` throws and the
loop is never reached, a path this definition does not describe (the
statements below take `n` from a natural number). -/
def cpp_init (sample : R → R → G → R × G) (n : Int) (g : G) : G × List (Planet R) :=
  (List.range n.toNat).foldl
    (cpp_init_body sample (-100.0) 100.0 (-1.0) 1.0 1.0 10.0)
    (g, List.replicate n.toNat default)

/-- The generator state before call number `k` (counted from `0`) of a
sequence of calls, `call k` being the operation of call number `k`. -/
def state_before {V : Type} (call : Nat → G → V × G) (g : G) : Nat → G
  | 0 => g
  | k + 1 => (call k (state_before call g k)).2

/-- The value returned by call number `k` (counted from `0`). -/
def draw {V : Type} (call : Nat → G → V × G) (g : G) (k : Nat) : V :=
  (call k (state_before call g k)).1

/-- The operation of call number `k` in `run_simulation`: the position
distribution for the first three calls of every seven, the velocity
distribution for the next three, the mass distribution for the last. -/
def cpp_call (sample : R → R → G → R × G) (k : Nat) : G → R × G :=
  if k % 7 < 3 then sample (-100.0) 100.0
  else if k % 7 < 6 then sample (-1.0) 1.0
  else sample 1.0 10.0

end Initializer

/-! Lemmas on the loops, then the statements of the specification. -/

set_option linter.unusedSectionVars false

section Structural
variable {R : Type} [OfScientific R]

theorem body_eq (ps : List (Planet R)) (i : Nat) : body ps i = (ps[i]?).getD default := by
  simp [body, List.getD_eq_getElem?_getD]

theorem body_of_lt (ps : List (Planet R)) (i : Nat) (h : i < ps.length) : body ps i = ps[i] := by
  simp [body_eq, List.getElem?_eq_getElem h]

/-- One in-place write of an updated record. -/
theorem getElem?_set_upd (upd : Planet R → Planet R) (qs : List (Planet R)) (i j : Nat) :
    (qs.set i (upd (body qs i)))[j]? = if j = i then (qs[j]?).map upd else qs[j]? := by
  rw [List.getElem?_set]
  by_cases h : i = j
  · subst h
    by_cases hl : i < qs.length
    · simp [hl, body_eq, List.getElem?_eq_getElem hl]
    · have : qs[i]? = none := List.getElem?_eq_none (by omega)
      simp [hl, this]
  · have h2 : ¬ j = i := fun e => h e.symm
    simp [h, h2]

/-- An index loop that rewrites `planets[i]` from its own old value. -/
theorem foldl_set_getElem? (upd : Nat → Planet R → Planet R) (ps : List (Planet R))
    (k j : Nat) :
    ((List.range k).foldl (fun qs i => qs.set i (upd i (body qs i))) ps)[j]?
      = if j < k then (ps[j]?).map (upd j) else ps[j]? := by
  induction k with
  | zero => simp
  | succ k ih =>
    rw [List.range_succ, List.foldl_append, List.foldl_cons, List.foldl_nil,
      getElem?_set_upd (upd k), ih]
    by_cases h1 : j = k
    · subst h1; simp
    · by_cases h2 : j < k
      · have : j < k + 1 := by omega
        simp [h1, h2, this]
      · have : ¬ j < k + 1 := by omega
        simp [h1, h2, this]

theorem same_place_loop (upd : Nat → Planet R → Planet R)
    (hupd : ∀ i p, same_place (upd i p) p) (ps : List (Planet R)) (k j : Nat) :
    same_place (body ((List.range k).foldl (fun qs i => qs.set i (upd i (body qs i))) ps) j)
      (body ps j) := by
  rw [body_eq, body_eq, foldl_set_getElem?]
  cases hj : ps[j]? with
  | none => simp [same_place]
  | some p =>
    by_cases h : j < k
    · simpa [h] using hupd j p
    · simp [h, same_place]

variable [Add R] [Sub R] [Mul R] [Div R]

theorem same_place_kick (p : Planet R) (f : R × R × R) (dt : R) : same_place (kick p f dt) p := by
  simp [same_place, kick]

/-- The accumulators only read positions and masses. -/
theorem force_on_congr (sqrt : R → R) (ps qs : List (Planet R)) (n : Int) (i : Nat)
    (h : ∀ j, same_place (body qs j) (body ps j)) :
    force_on sqrt qs n i = force_on sqrt ps n i := by
  have hterm : ∀ acc j, force_term sqrt qs i (body qs i).x (body qs i).y (body qs i).z acc j
      = force_term sqrt ps i (body ps i).x (body ps i).y (body ps i).z acc j := by
    intro acc j
    obtain ⟨a1, a2, a3, -⟩ := h i
    obtain ⟨b1, b2, b3, b4⟩ := h j
    simp only [force_term, a1, a2, a3, b1, b2, b3, b4]
  simp only [force_on]
  congr 1
  funext acc j
  exact hterm acc j

/-- The outer loop of `compute_forces`, cut after `k` passes, is the loop that
adds to each velocity the accumulator computed from the array as it was on entry. -/
theorem compute_forces_upto (sqrt : R → R) (ps : List (Planet R)) (n : Int) (dt : R) (k : Nat) :
    (List.range k).foldl (compute_forces_body sqrt n dt) ps
      = (List.range k).foldl
          (fun qs i => qs.set i ((fun i p => kick p (force_on sqrt ps n i) dt) i (body qs i))) ps := by
  induction k with
  | zero => simp
  | succ k ih =>
    rw [List.range_succ, List.foldl_append, List.foldl_append, ih]
    simp only [List.foldl_cons, List.foldl_nil, compute_forces_body]
    rw [force_on_congr sqrt ps _ n k
      (same_place_loop _ (fun i p => same_place_kick p _ dt) ps k)]

/-- Entry `j` of the array after `compute_forces`. -/
theorem compute_forces_getElem? (sqrt : R → R) (ps : List (Planet R)) (n : Int) (dt : R)
    (j : Nat) :
    (compute_forces sqrt ps n dt)[j]?
      = if j < n.toNat then (ps[j]?).map (fun p => kick p (force_on sqrt ps n j) dt)
        else ps[j]? := by
  rw [compute_forces, compute_forces_upto]
  exact foldl_set_getElem? (fun i p => kick p (force_on sqrt ps n i) dt) ps n.toNat j

/-- Entry `j` of the array after `update_positions`. -/
theorem update_positions_getElem? (ps : List (Planet R)) (n : Int) (dt : R) (j : Nat) :
    (update_positions ps n dt)[j]?
      = if j < n.toNat then (ps[j]?).map (fun p => drift p dt) else ps[j]? := by
  rw [update_positions, foldl_set_getElem? (fun _ p => drift p dt)]

/-- Entry `j` of the array after one step. -/
theorem step_getElem? (sqrt : R → R) (ps : List (Planet R)) (n : Int) (dt : R) (j : Nat) :
    (step sqrt ps n dt)[j]?
      = if j < n.toNat then
          (ps[j]?).map (fun p => drift (kick p (force_on sqrt ps n j) dt) dt)
        else ps[j]? := by
  rw [step, update_positions_getElem?, compute_forces_getElem?]
  by_cases h : j < n.toNat <;> cases ps[j]? <;> simp [h]

theorem body_compute_forces (sqrt : R → R) (ps : List (Planet R)) (n : Int) (dt : R) (i : Nat)
    (hn : i < n.toNat) (hi : i < ps.length) :
    body (compute_forces sqrt ps n dt) i = kick (body ps i) (force_on sqrt ps n i) dt := by
  rw [body_eq, compute_forces_getElem?, body_eq]
  simp [hn, List.getElem?_eq_getElem hi]

theorem body_step (sqrt : R → R) (ps : List (Planet R)) (n : Int) (dt : R) (i : Nat)
    (hn : i < n.toNat) (hi : i < ps.length) :
    body (step sqrt ps n dt) i = drift (kick (body ps i) (force_on sqrt ps n i) dt) dt := by
  rw [body_eq, step_getElem?, body_eq]
  simp [hn, List.getElem?_eq_getElem hi]

theorem force_evaluator_getD (sqrt : R → R) (ps : List (Planet R)) (n : Int) (i : Nat)
    (hi : i < n.toNat) (d : R × R × R) :
    (force_evaluator sqrt ps n).getD i d = force_on sqrt ps n i := by
  simp [force_evaluator, List.getD_eq_getElem?_getD, List.getElem?_map, List.getElem?_range hi]

theorem length_foldl_set (g : List (Planet R) → Nat → Planet R) (ps : List (Planet R))
    (is : List Nat) :
    (is.foldl (fun qs i => qs.set i (g qs i)) ps).length = ps.length := by
  induction is generalizing ps with
  | nil => rfl
  | cons i is ih => rw [List.foldl_cons, ih, List.length_set]

theorem length_compute_forces (sqrt : R → R) (ps : List (Planet R)) (n : Int) (dt : R) :
    (compute_forces sqrt ps n dt).length = ps.length :=
  length_foldl_set (fun qs i => kick (body qs i) (force_on sqrt qs n i) dt) ps _

theorem length_update_positions (ps : List (Planet R)) (n : Int) (dt : R) :
    (update_positions ps n dt).length = ps.length :=
  length_foldl_set (fun qs i => drift (body qs i) dt) ps _

theorem length_step (sqrt : R → R) (ps : List (Planet R)) (n : Int) (dt : R) :
    (step sqrt ps n dt).length = ps.length := by
  rw [step, length_update_positions, length_compute_forces]

theorem mass_step (sqrt : R → R) (ps : List (Planet R)) (n : Int) (dt : R) (i : Nat) :
    (body (step sqrt ps n dt) i).mass = (body ps i).mass := by
  rw [body_eq, step_getElem?, body_eq]
  by_cases h : i < n.toNat <;> cases ps[i]? <;> simp [h, drift, kick]

theorem step_loop_succ (sqrt : R → R) (ps : List (Planet R)) (n : Int) (dt : R) (S : Nat) :
    step_loop sqrt ps n ((S + 1 : Nat) : Int) dt
      = step sqrt (step_loop sqrt ps n (S : Int) dt) n dt := by
  simp only [step_loop, Int.toNat_ofNat, List.range_succ, List.foldl_append, List.foldl_cons,
    List.foldl_nil]

theorem step_loop_zero (sqrt : R → R) (ps : List (Planet R)) (n : Int) (dt : R) :
    step_loop sqrt ps n 0 dt = ps := by
  simp [step_loop]

theorem step_loop_add (sqrt : R → R) (ps : List (Planet R)) (n : Int) (dt : R) (a b : Nat) :
    step_loop sqrt ps n ((a + b : Nat) : Int) dt
      = step_loop sqrt (step_loop sqrt ps n (a : Int) dt) n (b : Int) dt := by
  induction b with
  | zero => simp [step_loop]
  | succ b ih => rw [← Nat.add_assoc, step_loop_succ, step_loop_succ, ih]

theorem step_loop_count_and_mass (sqrt : R → R) (ps : List (Planet R)) (n : Int) (dt : R)
    (S : Nat) :
    (step_loop sqrt ps n (S : Int) dt).length = ps.length
    ∧ ∀ i, (body (step_loop sqrt ps n (S : Int) dt) i).mass = (body ps i).mass := by
  induction S with
  | zero => simp [step_loop]
  | succ S ih =>
    rw [step_loop_succ]
    exact ⟨by rw [length_step, ih.1], fun i => by rw [mass_step, ih.2]⟩

end Structural

section Exact

variable {R : Type} [Field R]

theorem zero_literal : (0.0 : R) = 0 := by norm_num

theorem force_term_exact (sqrt : R → R) (ps : List (Planet R)) (i j : Nat) (h : i ≠ j)
    (acc : R × R × R) :
    force_term sqrt ps i (body ps i).x (body ps i).y (body ps i).z acc j
      = (acc.1 + pair_term sqrt ps i j ((body ps j).x - (body ps i).x),
         acc.2.1 + pair_term sqrt ps i j ((body ps j).y - (body ps i).y),
         acc.2.2 + pair_term sqrt ps i j ((body ps j).z - (body ps i).z)) := by
  simp only [force_term, if_neg h, pair_term, r2, soft_epsilon, pow_two, div_mul_eq_mul_div]

theorem foldl_force_term (sqrt : R → R) (ps : List (Planet R)) (i k : Nat) (acc : R × R × R) :
    (List.range k).foldl (force_term sqrt ps i (body ps i).x (body ps i).y (body ps i).z) acc
      = (acc.1 + ∑ j in (Finset.range k).filter (fun j => j ≠ i),
            pair_term sqrt ps i j ((body ps j).x - (body ps i).x),
         acc.2.1 + ∑ j in (Finset.range k).filter (fun j => j ≠ i),
            pair_term sqrt ps i j ((body ps j).y - (body ps i).y),
         acc.2.2 + ∑ j in (Finset.range k).filter (fun j => j ≠ i),
            pair_term sqrt ps i j ((body ps j).z - (body ps i).z)) := by
  induction k with
  | zero => simp
  | succ k ih =>
    rw [List.range_succ, List.foldl_append, ih, List.foldl_cons, List.foldl_nil,
      Finset.range_succ, Finset.filter_insert]
    by_cases h : i = k
    · subst h
      simp [force_term]
    · have h2 : k ≠ i := fun e => h e.symm
      rw [force_term_exact sqrt ps i k h, if_pos h2,
        Finset.sum_insert (by simp), Finset.sum_insert (by simp), Finset.sum_insert (by simp)]
      simp only [Prod.mk.injEq]
      refine ⟨by ring, by ring, by ring⟩

/-- The accumulators of body `i` are the sums of the specification. -/
theorem force_on_exact (sqrt : R → R) (ps : List (Planet R)) (n : Int) (i : Nat) :
    force_on sqrt ps n i
      = (∑ j in (Finset.range n.toNat).filter (fun j => j ≠ i),
            pair_term sqrt ps i j ((body ps j).x - (body ps i).x),
         ∑ j in (Finset.range n.toNat).filter (fun j => j ≠ i),
            pair_term sqrt ps i j ((body ps j).y - (body ps i).y),
         ∑ j in (Finset.range n.toNat).filter (fun j => j ≠ i),
            pair_term sqrt ps i j ((body ps j).z - (body ps i).z)) := by
  simp only [force_on]
  rw [foldl_force_term]
  simp [zero_literal]

theorem range_one : List.range 1 = [0] := rfl

theorem range_two : List.range 2 = [0, 1] := rfl

end Exact

section ForcePass

variable {R : Type} [Field R]

/-- C1. For every store of N bodies and every index `i < N`, `compute_forces`
changes the velocity of body `i` by exactly `dt` times the sum over all `j ≠ i`
of `mass(j) * (position(j) - position(i)) / (r2 * sqrt r2)`, with
`r2 = |position(j) - position(i)|^2 + 1e-9`, the positions and masses being
those of the store passed in.  Exact arithmetic: any field, any function
`sqrt`; the real numbers with `Real.sqrt` are one instance. -/
theorem compute_forces_velocity_change (sqrt : R → R) (planets : List (Planet R)) (dt : R)
    (i : Nat) (hi : i < planets.length) :
    (body (compute_forces sqrt planets planets.length dt) i).vx - (body planets i).vx
        = dt * ∑ j in (Finset.range planets.length).filter (fun j => j ≠ i),
            (body planets j).mass * ((body planets j).x - (body planets i).x)
              / (r2 planets i j * sqrt (r2 planets i j))
    ∧ (body (compute_forces sqrt planets planets.length dt) i).vy - (body planets i).vy
        = dt * ∑ j in (Finset.range planets.length).filter (fun j => j ≠ i),
            (body planets j).mass * ((body planets j).y - (body planets i).y)
              / (r2 planets i j * sqrt (r2 planets i j))
    ∧ (body (compute_forces sqrt planets planets.length dt) i).vz - (body planets i).vz
        = dt * ∑ j in (Finset.range planets.length).filter (fun j => j ≠ i),
            (body planets j).mass * ((body planets j).z - (body planets i).z)
              / (r2 planets i j * sqrt (r2 planets i j)) := by
  rw [body_compute_forces sqrt planets _ dt i (by simpa using hi) hi, force_on_exact]
  simp only [kick, Int.toNat_ofNat, pair_term]
  refine ⟨by ring, by ring, by ring⟩

/-- Instance of the theorem above on the scenario store, over the real numbers. -/
theorem compute_forces_velocity_change_witness :
    1 < (scenario (R := ℝ)).length
    ∧ (body (compute_forces Real.sqrt (scenario (R := ℝ)) (scenario (R := ℝ)).length 0.01) 1).vx
          - (body (scenario (R := ℝ)) 1).vx
        = 0.01 * ∑ j in (Finset.range (scenario (R := ℝ)).length).filter (fun j => j ≠ 1),
            (body (scenario (R := ℝ)) j).mass
              * ((body (scenario (R := ℝ)) j).x - (body (scenario (R := ℝ)) 1).x)
              / (r2 (scenario (R := ℝ)) 1 j * Real.sqrt (r2 (scenario (R := ℝ)) 1 j)) :=
  ⟨by decide, (compute_forces_velocity_change Real.sqrt scenario 0.01 1 (by decide)).1⟩

end ForcePass

section StepOrder

variable {R : Type} [Add R] [Sub R] [Mul R] [Div R] [OfScientific R]

/-- C2. In one step (`compute_forces` followed by `update_positions`) the new
position of every body is its old position plus `dt` times its new velocity,
the one left by the force pass of this step: `x = x_old + (vx_old + fx * dt) * dt`
where `fx` is the accumulator computed from the store before the step, and
likewise for `y` and `z`.  No law of arithmetic is used. -/
theorem step_position_uses_new_velocity (sqrt : R → R) (planets : List (Planet R)) (dt : R)
    (i : Nat) (hi : i < planets.length) :
    ((body (step sqrt planets planets.length dt) i).x
        = (body planets i).x + (body (compute_forces sqrt planets planets.length dt) i).vx * dt
      ∧ (body (step sqrt planets planets.length dt) i).y
        = (body planets i).y + (body (compute_forces sqrt planets planets.length dt) i).vy * dt
      ∧ (body (step sqrt planets planets.length dt) i).z
        = (body planets i).z + (body (compute_forces sqrt planets planets.length dt) i).vz * dt)
    ∧ ((body (step sqrt planets planets.length dt) i).x
        = (body planets i).x
          + ((body planets i).vx + (force_on sqrt planets planets.length i).1 * dt) * dt
      ∧ (body (step sqrt planets planets.length dt) i).y
        = (body planets i).y
          + ((body planets i).vy + (force_on sqrt planets planets.length i).2.1 * dt) * dt
      ∧ (body (step sqrt planets planets.length dt) i).z
        = (body planets i).z
          + ((body planets i).vz + (force_on sqrt planets planets.length i).2.2 * dt) * dt) := by
  rw [body_step sqrt planets _ dt i (by simpa using hi) hi,
    body_compute_forces sqrt planets _ dt i (by simpa using hi) hi]
  simp [drift, kick]

/-- Instance of the theorem above on the scenario store, over the real numbers. -/
theorem step_position_uses_new_velocity_witness :
    1 < (scenario (R := ℝ)).length
    ∧ (body (step Real.sqrt (scenario (R := ℝ)) (scenario (R := ℝ)).length 0.01) 1).x
        = (body (scenario (R := ℝ)) 1).x
          + ((body (scenario (R := ℝ)) 1).vx
              + (force_on Real.sqrt (scenario (R := ℝ)) (scenario (R := ℝ)).length 1).1 * 0.01)
            * 0.01 :=
  ⟨by decide, (step_position_uses_new_velocity Real.sqrt scenario 0.01 1 (by decide)).2.1⟩

/-- C3. The step of the code, whose force loop writes the velocity of body `i`
while the accumulators of the later bodies are still to be computed, yields
the same store as the two-phase reference that first computes all accumulators
from the store as it is before the step and only then runs the velocity pass
and the position pass.  For every store and every count; no law of arithmetic
is used. -/
theorem step_eq_step_two_phase (sqrt : R → R) (planets : List (Planet R)) (n : Int) (dt : R) :
    step sqrt planets n dt = step_two_phase sqrt planets n dt := by
  apply List.ext_getElem?
  intro j
  rw [step_getElem?]
  rw [step_two_phase, position_pass,
    foldl_set_getElem?
      (fun _ p => { p with x := p.x + p.vx * dt, y := p.y + p.vy * dt, z := p.z + p.vz * dt }),
    velocity_pass,
    foldl_set_getElem?
      (fun i p => { p with
        vx := p.vx + ((force_evaluator sqrt planets n).getD i (0.0, 0.0, 0.0)).1 * dt
        vy := p.vy + ((force_evaluator sqrt planets n).getD i (0.0, 0.0, 0.0)).2.1 * dt
        vz := p.vz + ((force_evaluator sqrt planets n).getD i (0.0, 0.0, 0.0)).2.2 * dt })]
  by_cases h : j < n.toNat
  · have hf : ((force_evaluator sqrt planets n)[j]?).getD (0.0, 0.0, 0.0)
        = force_on sqrt planets n j := by
      rw [← List.getD_eq_getElem?_getD]
      exact force_evaluator_getD sqrt planets n j h _
    cases planets[j]? <;> simp [h, hf, drift, kick]
  · simp [h]

/-- C4. After the step loop of `main` has run `S` steps on a store, the store
has as many bodies as before, and the mass of every body is the mass it had
before at the same index. -/
theorem main_loop_count_and_mass (sqrt : R → R) (planets : List (Planet R)) (S : Nat)
    (i : Nat) (hi : i < planets.length) :
    (main_loop sqrt planets planets.length S).length = planets.length
    ∧ (body (main_loop sqrt planets planets.length S) i).mass = (body planets i).mass
    ∧ (main_loop sqrt planets planets.length S)[i]?.map Planet.mass
        = some (planets.get ⟨i, hi⟩).mass :=
  have h := step_loop_count_and_mass sqrt planets planets.length 0.01 S
  ⟨h.1, h.2 i, by
    have hb := h.2 i
    have hl : i < (step_loop sqrt planets planets.length S 0.01).length := by rw [h.1]; exact hi
    rw [body_of_lt _ i hl, body_of_lt _ i hi] at hb
    simp [main_loop, List.getElem?_eq_getElem hl, hb]⟩

/-- Instance of the theorem above on the scenario store, over the real numbers. -/
theorem main_loop_count_and_mass_witness :
    1 < (scenario (R := ℝ)).length
    ∧ (main_loop Real.sqrt (scenario (R := ℝ)) (scenario (R := ℝ)).length (3 : Nat)).length
        = (scenario (R := ℝ)).length
    ∧ (body (main_loop Real.sqrt (scenario (R := ℝ)) (scenario (R := ℝ)).length (3 : Nat)) 1).mass
        = (body (scenario (R := ℝ)) 1).mass :=
  have h := main_loop_count_and_mass Real.sqrt (scenario (R := ℝ)) 3 1 (by decide)
  ⟨by decide, h.1, h.2.1⟩

end StepOrder

section SmallStores

variable {R : Type} [Field R]

/-- C5. For a store of one body the accumulator is `(0, 0, 0)`, the force pass
leaves the body as it is, and one step moves the position by the velocity it
already had times `dt`, the velocity and the mass staying as they were; for
the empty store a step returns the empty store. -/
theorem single_body_step (sqrt : R → R) (p : Planet R) (dt : R) :
    force_on sqrt [p] 1 0 = (0, 0, 0)
    ∧ compute_forces sqrt [p] 1 dt = [p]
    ∧ step sqrt [p] 1 dt
        = [{ p with x := p.x + p.vx * dt, y := p.y + p.vy * dt, z := p.z + p.vz * dt }]
    ∧ step sqrt ([] : List (Planet R)) 0 dt = [] := by
  have hf : force_on sqrt [p] 1 0 = (0, 0, 0) := by
    simp [force_on, force_term, zero_literal, range_one]
  have hc : compute_forces sqrt [p] 1 dt = [p] := by
    simp [compute_forces, compute_forces_body, hf, kick, body, range_one]
  refine ⟨hf, hc, ?_, ?_⟩
  · simp [step, hc, update_positions, drift, body, range_one]
  · simp [step, compute_forces, update_positions]

end SmallStores

section Driver

variable {R : Type} [Add R] [Sub R] [Mul R] [Div R] [OfScientific R]

/-- C6. The step loop of `main` run with `steps = 0` returns the store it was
given: the loop body is not executed. -/
theorem main_loop_zero_steps (sqrt : R → R) (planets : List (Planet R)) (n : Int) :
    main_loop sqrt planets n 0 = planets := by
  simp [main_loop, step_loop]

/-- C7. Running `S` steps in one loop gives the same store as running the
one-step loop `S` times, each time on the store the previous run returned; and
running `a + b` steps gives the same store as running `a` steps and then `b`
steps on the result. -/
theorem main_loop_decomposes (sqrt : R → R) (planets : List (Planet R)) (n : Int) :
    (∀ S : Nat, main_loop sqrt planets n (S : Int)
        = (fun ps => main_loop sqrt ps n 1)^[S] planets)
    ∧ ∀ a b : Nat, main_loop sqrt planets n ((a + b : Nat) : Int)
        = main_loop sqrt (main_loop sqrt planets n (a : Int)) n (b : Int) := by
  refine ⟨fun S => ?_, fun a b => step_loop_add sqrt planets n 0.01 a b⟩
  induction S with
  | zero => simp [main_loop, step_loop]
  | succ S ih =>
    rw [Function.iterate_succ_apply', ← ih]
    exact step_loop_add sqrt planets n 0.01 S 1

end Driver

section TwoBodies

variable {R : Type} [Field R]

/-- C8. For a store of two bodies of equal mass the accumulators of the two
bodies are opposite, coordinate by coordinate, and `compute_forces` changes
the two velocities by opposite vectors.  Exact arithmetic: any field, any
function `sqrt`. -/
theorem two_body_opposite_forces (sqrt : R → R) (p q : Planet R) (dt : R)
    (hm : p.mass = q.mass) :
    ((force_on sqrt [p, q] 2 0).1 = -(force_on sqrt [p, q] 2 1).1
      ∧ (force_on sqrt [p, q] 2 0).2.1 = -(force_on sqrt [p, q] 2 1).2.1
      ∧ (force_on sqrt [p, q] 2 0).2.2 = -(force_on sqrt [p, q] 2 1).2.2)
    ∧ ((body (compute_forces sqrt [p, q] 2 dt) 0).vx - p.vx
          = -((body (compute_forces sqrt [p, q] 2 dt) 1).vx - q.vx)
      ∧ (body (compute_forces sqrt [p, q] 2 dt) 0).vy - p.vy
          = -((body (compute_forces sqrt [p, q] 2 dt) 1).vy - q.vy)
      ∧ (body (compute_forces sqrt [p, q] 2 dt) 0).vz - p.vz
          = -((body (compute_forces sqrt [p, q] 2 dt) 1).vz - q.vz)) := by
  have hd : (p.x - q.x) * (p.x - q.x) + (p.y - q.y) * (p.y - q.y) + (p.z - q.z) * (p.z - q.z)
      = (q.x - p.x) * (q.x - p.x) + (q.y - p.y) * (q.y - p.y) + (q.z - p.z) * (q.z - p.z) := by
    ring
  have h0 : force_on sqrt [p, q] 2 0
      = (0 + q.mass / (((q.x - p.x) * (q.x - p.x) + (q.y - p.y) * (q.y - p.y)
            + (q.z - p.z) * (q.z - p.z) + 1e-9)
          * sqrt ((q.x - p.x) * (q.x - p.x) + (q.y - p.y) * (q.y - p.y)
            + (q.z - p.z) * (q.z - p.z) + 1e-9)) * (q.x - p.x),
         0 + q.mass / (((q.x - p.x) * (q.x - p.x) + (q.y - p.y) * (q.y - p.y)
            + (q.z - p.z) * (q.z - p.z) + 1e-9)
          * sqrt ((q.x - p.x) * (q.x - p.x) + (q.y - p.y) * (q.y - p.y)
            + (q.z - p.z) * (q.z - p.z) + 1e-9)) * (q.y - p.y),
         0 + q.mass / (((q.x - p.x) * (q.x - p.x) + (q.y - p.y) * (q.y - p.y)
            + (q.z - p.z) * (q.z - p.z) + 1e-9)
          * sqrt ((q.x - p.x) * (q.x - p.x) + (q.y - p.y) * (q.y - p.y)
            + (q.z - p.z) * (q.z - p.z) + 1e-9)) * (q.z - p.z)) := by
    simp [force_on, force_term, body, soft_epsilon, zero_literal, range_two]
  have h1 : force_on sqrt [p, q] 2 1
      = (0 + p.mass / (((p.x - q.x) * (p.x - q.x) + (p.y - q.y) * (p.y - q.y)
            + (p.z - q.z) * (p.z - q.z) + 1e-9)
          * sqrt ((p.x - q.x) * (p.x - q.x) + (p.y - q.y) * (p.y - q.y)
            + (p.z - q.z) * (p.z - q.z) + 1e-9)) * (p.x - q.x),
         0 + p.mass / (((p.x - q.x) * (p.x - q.x) + (p.y - q.y) * (p.y - q.y)
            + (p.z - q.z) * (p.z - q.z) + 1e-9)
          * sqrt ((p.x - q.x) * (p.x - q.x) + (p.y - q.y) * (p.y - q.y)
            + (p.z - q.z) * (p.z - q.z) + 1e-9)) * (p.y - q.y),
         0 + p.mass / (((p.x - q.x) * (p.x - q.x) + (p.y - q.y) * (p.y - q.y)
            + (p.z - q.z) * (p.z - q.z) + 1e-9)
          * sqrt ((p.x - q.x) * (p.x - q.x) + (p.y - q.y) * (p.y - q.y)
            + (p.z - q.z) * (p.z - q.z) + 1e-9)) * (p.z - q.z)) := by
    simp [force_on, force_term, body, soft_epsilon, zero_literal, range_two]
  have hf : (force_on sqrt [p, q] 2 0).1 = -(force_on sqrt [p, q] 2 1).1
      ∧ (force_on sqrt [p, q] 2 0).2.1 = -(force_on sqrt [p, q] 2 1).2.1
      ∧ (force_on sqrt [p, q] 2 0).2.2 = -(force_on sqrt [p, q] 2 1).2.2 := by
    rw [h0, h1, hd, hm]
    refine ⟨by ring, by ring, by ring⟩
  refine ⟨hf, ?_⟩
  rw [body_compute_forces sqrt [p, q] 2 dt 0 (by decide) (by simp),
    body_compute_forces sqrt [p, q] 2 dt 1 (by decide) (by simp)]
  obtain ⟨hx, hy, hz⟩ := hf
  simp only [kick, body, List.getD_cons_zero, List.getD_cons_succ, hx, hy, hz]
  refine ⟨by ring, by ring, by ring⟩

/-- Instance of the theorem above on the scenario store, over the real numbers. -/
theorem two_body_opposite_forces_witness :
    (⟨0, 0, 0, 0, 0, 0, 1⟩ : Planet ℝ).mass = (⟨10, 0, 0, 0, 0, 0, 1⟩ : Planet ℝ).mass
    ∧ (force_on Real.sqrt [(⟨0, 0, 0, 0, 0, 0, 1⟩ : Planet ℝ), ⟨10, 0, 0, 0, 0, 0, 1⟩] 2 0).1
        = -(force_on Real.sqrt [(⟨0, 0, 0, 0, 0, 0, 1⟩ : Planet ℝ), ⟨10, 0, 0, 0, 0, 0, 1⟩] 2 1).1 :=
  ⟨rfl, (two_body_opposite_forces Real.sqrt ⟨0, 0, 0, 0, 0, 0, 1⟩ ⟨10, 0, 0, 0, 0, 0, 1⟩ 0.01
    rfl).1.1⟩

end TwoBodies

section Scenario

theorem real_literals :
    (0.0 : ℝ) = 0 ∧ (1.0 : ℝ) = 1 ∧ (10.0 : ℝ) = 10 := by
  norm_num

theorem scenario_force_pass :
    compute_forces Real.sqrt (scenario (R := ℝ)) 2 0.01
      = [⟨0, 0, 0, 0.01 * 10 / ((100 + 1e-9) * Real.sqrt (100 + 1e-9)), 0, 0, 1⟩,
         ⟨10, 0, 0, -(0.01 * 10 / ((100 + 1e-9) * Real.sqrt (100 + 1e-9))), 0, 0, 1⟩] := by
  have h1 : ((10 : ℝ) * 10 + 1e-9) = 100 + 1e-9 := by norm_num
  obtain ⟨l0, l1, l10⟩ := real_literals
  simp [compute_forces, compute_forces_body, force_on, force_term, kick, body, scenario,
    soft_epsilon, range_two, l0, l1, l10, h1]
  ring

/-- C9. End-to-end scenario over the real numbers: after one step of the loop
of `main` (`dt = 0.01`) on the scenario store, body 0 has
`vx = 0.01 * 10 / ((100 + 1e-9) * sqrt (100 + 1e-9))`, which is positive, body 1
has the negative of that value, `vy` and `vz` of both are `0`, the positions
are `x_0 = vx_0 * 0.01` and `x_1 = 10 + vx_1 * 0.01`, and `y`, `z` and the
masses are as before. -/
theorem scenario_one_step :
    main_loop Real.sqrt (scenario (R := ℝ)) 2 1
      = [⟨0.01 * 10 / ((100 + 1e-9) * Real.sqrt (100 + 1e-9)) * 0.01, 0, 0,
          0.01 * 10 / ((100 + 1e-9) * Real.sqrt (100 + 1e-9)), 0, 0, 1⟩,
         ⟨10 + -(0.01 * 10 / ((100 + 1e-9) * Real.sqrt (100 + 1e-9))) * 0.01, 0, 0,
          -(0.01 * 10 / ((100 + 1e-9) * Real.sqrt (100 + 1e-9))), 0, 0, 1⟩]
    ∧ 0 < 0.01 * 10 / ((100 + 1e-9) * Real.sqrt (100 + 1e-9)) := by
  constructor
  · have hs : main_loop Real.sqrt (scenario (R := ℝ)) 2 1
        = update_positions (compute_forces Real.sqrt scenario 2 0.01) 2 0.01 := by
      simp [main_loop, step_loop, step, range_one]
    rw [hs, scenario_force_pass]
    simp [update_positions, drift, body, range_two]
  · have h : (0 : ℝ) < 100 + 1e-9 := by norm_num
    have hr : 0 < Real.sqrt (100 + 1e-9) := Real.sqrt_pos.mpr h
    positivity

/-- C10. The order of the two passes matters: on the scenario store, one step
of the code (velocity pass, then position pass) differs from the step with the
position pass first and the velocity pass second on the same accumulators, and
also from `update_positions` followed by `compute_forces`. -/
theorem pass_order_matters :
    step Real.sqrt (scenario (R := ℝ)) 2 0.01 ≠ step_position_first Real.sqrt scenario 2 0.01
    ∧ step Real.sqrt (scenario (R := ℝ)) 2 0.01
        ≠ compute_forces Real.sqrt (update_positions scenario 2 0.01) 2 0.01 := by
  have h : (0 : ℝ) < 100 + 1e-9 := by norm_num
  have hr : 0 < Real.sqrt (100 + 1e-9) := Real.sqrt_pos.mpr h
  have ha : (0 : ℝ) < 0.01 * 10 / ((100 + 1e-9) * Real.sqrt (100 + 1e-9)) * 0.01 := by
    positivity
  obtain ⟨l0, l1, l10⟩ := real_literals
  have hstep : (body (step Real.sqrt (scenario (R := ℝ)) 2 0.01) 0).x
      = 0.01 * 10 / ((100 + 1e-9) * Real.sqrt (100 + 1e-9)) * 0.01 := by
    rw [step, scenario_force_pass]
    simp [update_positions, drift, body, range_two]
  have hpos : update_positions (scenario (R := ℝ)) 2 0.01 = scenario := by
    simp [update_positions, drift, body, scenario, range_two, l0, l1, l10]
  have hcf : (body (compute_forces Real.sqrt (scenario (R := ℝ)) 2 0.01) 0).x = 0 := by
    rw [scenario_force_pass]
    simp [body]
  have hswap : (body (step_position_first Real.sqrt (scenario (R := ℝ)) 2 0.01) 0).x = 0 := by
    have hpp : position_pass (scenario (R := ℝ)) 2 0.01 = scenario := by
      simp [position_pass, body, scenario, range_two, l0, l1, l10]
    rw [step_position_first, hpp]
    simp [velocity_pass, body, scenario, range_two, l0]
  constructor
  · intro e
    rw [e, hswap] at hstep
    exact absurd hstep (ne_of_lt ha)
  · intro e
    rw [e, hpos, hcf] at hstep
    exact absurd hstep (ne_of_lt ha)

end Scenario

/-! Softening, the entry points, the initializer, momentum, frames and the two
implementations. -/

section Softening

/-- The inner loop body of `compute_forces` divides by `dist_sq * sqrt dist_sq`. -/
theorem force_term_dist_sq {R : Type} [Add R] [Sub R] [Mul R] [Div R] [OfScientific R]
    (sqrt : R → R) (ps : List (Planet R)) (i j : Nat) (h : i ≠ j) (acc : R × R × R) :
    force_term sqrt ps i (body ps i).x (body ps i).y (body ps i).z acc j
      = (acc.1 + (body ps j).mass / (dist_sq ps i j * sqrt (dist_sq ps i j))
            * ((body ps j).x - (body ps i).x),
         acc.2.1 + (body ps j).mass / (dist_sq ps i j * sqrt (dist_sq ps i j))
            * ((body ps j).y - (body ps i).y),
         acc.2.2 + (body ps j).mass / (dist_sq ps i j * sqrt (dist_sq ps i j))
            * ((body ps j).z - (body ps i).z)) := by
  simp only [force_term, if_neg h, dist_sq]

theorem dist_sq_ge (ps : List (Planet ℝ)) (i j : Nat) :
    (soft_epsilon : ℝ) ≤ dist_sq ps i j := by
  simp only [dist_sq]
  nlinarith [mul_self_nonneg ((body ps j).x - (body ps i).x),
    mul_self_nonneg ((body ps j).y - (body ps i).y),
    mul_self_nonneg ((body ps j).z - (body ps i).z)]

/-- C11. Softening removes the singularity.  Over the real numbers, for every
store and every pair `i ≠ j`: the inner loop of `compute_forces` divides by
`dist_sq * sqrt dist_sq`; `soft_epsilon = 1e-9` is positive, `dist_sq` is at
least `soft_epsilon`, and the divisor is strictly positive, also for two
bodies at the same position.  Two bodies at the same position have
`dist_sq = soft_epsilon` and add exactly `(0, 0, 0)` to the accumulator of each
other. -/
theorem softening_removes_singularity (ps : List (Planet ℝ)) (i j : Nat) (hij : i ≠ j)
    (acc : ℝ × ℝ × ℝ) :
    force_term Real.sqrt ps i (body ps i).x (body ps i).y (body ps i).z acc j
        = (acc.1 + (body ps j).mass / (dist_sq ps i j * Real.sqrt (dist_sq ps i j))
              * ((body ps j).x - (body ps i).x),
           acc.2.1 + (body ps j).mass / (dist_sq ps i j * Real.sqrt (dist_sq ps i j))
              * ((body ps j).y - (body ps i).y),
           acc.2.2 + (body ps j).mass / (dist_sq ps i j * Real.sqrt (dist_sq ps i j))
              * ((body ps j).z - (body ps i).z))
    ∧ (soft_epsilon : ℝ) = 1e-9
    ∧ (0 : ℝ) < soft_epsilon
    ∧ (soft_epsilon : ℝ) ≤ dist_sq ps i j
    ∧ 0 < dist_sq ps i j * Real.sqrt (dist_sq ps i j)
    ∧ ((body ps j).x = (body ps i).x → (body ps j).y = (body ps i).y
        → (body ps j).z = (body ps i).z →
        dist_sq ps i j = soft_epsilon
        ∧ force_term Real.sqrt ps i (body ps i).x (body ps i).y (body ps i).z (0, 0, 0) j
            = (0, 0, 0)
        ∧ force_term Real.sqrt ps j (body ps j).x (body ps j).y (body ps j).z (0, 0, 0) i
            = (0, 0, 0)
        ∧ force_term Real.sqrt ps i (body ps i).x (body ps i).y (body ps i).z acc j = acc) := by
  have hpos : (0 : ℝ) < soft_epsilon := by
    simp only [soft_epsilon]
    norm_num
  have hge := dist_sq_ge ps i j
  have hd : 0 < dist_sq ps i j := lt_of_lt_of_le hpos hge
  have hs : 0 < Real.sqrt (dist_sq ps i j) := Real.sqrt_pos.mpr hd
  refine ⟨force_term_dist_sq Real.sqrt ps i j hij acc, rfl, hpos, hge, mul_pos hd hs, ?_⟩
  intro hx hy hz
  have hji : j ≠ i := fun e => hij e.symm
  refine ⟨by simp [dist_sq, hx, hy, hz], ?_, ?_, ?_⟩
  · rw [force_term_dist_sq Real.sqrt ps i j hij]
    simp [hx, hy, hz]
  · rw [force_term_dist_sq Real.sqrt ps j i hji]
    simp [hx, hy, hz]
  · rw [force_term_dist_sq Real.sqrt ps i j hij]
    simp [hx, hy, hz]

/-- Instance of the theorem above on concrete data. -/
theorem softening_removes_singularity_witness :
    (0 : Nat) ≠ 1
    ∧ (soft_epsilon : ℝ) ≤ dist_sq [(⟨1, 2, 3, 0, 0, 0, 5⟩ : Planet ℝ), ⟨1, 2, 3, 4, 0, 0, 7⟩] 0 1
    ∧ force_term Real.sqrt [(⟨1, 2, 3, 0, 0, 0, 5⟩ : Planet ℝ), ⟨1, 2, 3, 4, 0, 0, 7⟩] 0
        (body [(⟨1, 2, 3, 0, 0, 0, 5⟩ : Planet ℝ), ⟨1, 2, 3, 4, 0, 0, 7⟩] 0).x
        (body [(⟨1, 2, 3, 0, 0, 0, 5⟩ : Planet ℝ), ⟨1, 2, 3, 4, 0, 0, 7⟩] 0).y
        (body [(⟨1, 2, 3, 0, 0, 0, 5⟩ : Planet ℝ), ⟨1, 2, 3, 4, 0, 0, 7⟩] 0).z (0, 0, 0) 1
        = (0, 0, 0) :=
  have h := softening_removes_singularity
    [(⟨1, 2, 3, 0, 0, 0, 5⟩ : Planet ℝ), ⟨1, 2, 3, 4, 0, 0, 7⟩] 0 1 (by decide) (0, 0, 0)
  ⟨by decide, h.2.2.2.1, (h.2.2.2.2.2 rfl rfl rfl).2.1⟩

end Softening

section Arguments

/-- The indices of the flag loop, cut at an index `k` of the loop. -/
theorem flag_indices_split (argc k : Nat) (h1 : 1 ≤ k) (h2 : k + 1 < argc) :
    List.range' 1 (argc - 1)
      = List.range' 1 (k - 1) ++ k :: List.range' (k + 1) (argc - 1 - k) := by
  have e : argc - 1 = (argc - 1 - k + 1) + (k - 1) := by omega
  have e2 : 1 + (k - 1) = k := by omega
  conv_lhs => rw [e, ← List.range'_append_1, List.range'_succ, e2]

/-- A scalar that a loop overwrites under a condition keeps the value of the
last pass whose condition held. -/
theorem foldl_last_write {α : Type} (P : Nat → Prop) [DecidablePred P] (v : Nat → α)
    (l1 l2 : List Nat) (k : Nat) (a : α) (hk : P k) (hl2 : ∀ i ∈ l2, ¬ P i) :
    (l1 ++ k :: l2).foldl (fun a i => if P i then v i else a) a = v k := by
  rw [List.foldl_append, List.foldl_cons, if_pos hk]
  induction l2 with
  | nil => rfl
  | cons i l2 ih =>
    rw [List.foldl_cons, if_neg (hl2 i (List.mem_cons_self _ _))]
    exact ih (fun t ht => hl2 t (List.mem_cons_of_mem _ ht))

theorem c_flag_loop_fst (atoi : String → Int) (argv : List String) (is : List Nat)
    (st : Int × Int) :
    (is.foldl (c_flag_step atoi argv) st).1
      = is.foldl (fun a i => if arg argv i = "--n" ∧ i + 1 < argv.length
          then atoi (arg argv (i + 1)) else a) st.1 := by
  induction is generalizing st with
  | nil => rfl
  | cons i is ih => rw [List.foldl_cons, List.foldl_cons, ih]; rfl

theorem c_flag_loop_snd (atoi : String → Int) (argv : List String) (is : List Nat)
    (st : Int × Int) :
    (is.foldl (c_flag_step atoi argv) st).2
      = is.foldl (fun a i => if arg argv i = "--steps" ∧ i + 1 < argv.length
          then atoi (arg argv (i + 1)) else a) st.2 := by
  induction is generalizing st with
  | nil => rfl
  | cons i is ih => rw [List.foldl_cons, List.foldl_cons, ih]; rfl

/-- The value the flag loop leaves for a flag is the one converted after the
last place where the flag stands with a value after it. -/
theorem flag_loop_last (flag : String) (conv : String → Int) (argv : List String) (k : Nat)
    (a : Int) (h : last_valued_occurrence flag argv k) :
    (List.range' 1 (argv.length - 1)).foldl
        (fun a i => if arg argv i = flag ∧ i + 1 < argv.length
          then conv (arg argv (i + 1)) else a) a
      = conv (arg argv (k + 1)) := by
  obtain ⟨h1, h2, h3, h4⟩ := h
  rw [flag_indices_split argv.length k h1 h2]
  apply foldl_last_write (fun i => arg argv i = flag ∧ i + 1 < argv.length)
    (fun i => conv (arg argv (i + 1)))
  · exact ⟨h3, h2⟩
  · intro i hi
    rw [List.mem_range'_1] at hi
    intro hP
    exact h4 i (by omega) (by omega) hP.2 hP.1

/-- When every conversion the C++ flag loop makes succeeds, the loop computes
what the C flag loop computes from the defaults. -/
theorem cpp_flag_loop_eq (stoi : String → Option Int) (argv : List String) (is : List Nat)
    (hconv : ∀ i ∈ is, i + 1 < argv.length → (arg argv i = "--n" ∨ arg argv i = "--steps") →
      (stoi (arg argv (i + 1))).isSome) (st : Int × Int) :
    is.foldl (cpp_flag_step stoi argv) (some st)
      = some (is.foldl (c_flag_step (fun s => (stoi s).getD 0) argv) st) := by
  induction is generalizing st with
  | nil => rfl
  | cons i is ih =>
    rw [List.foldl_cons, List.foldl_cons]
    have hstep : cpp_flag_step stoi argv (some st) i
        = some (c_flag_step (fun s => (stoi s).getD 0) argv st i) := by
      have hi := hconv i (List.mem_cons_self _ _)
      obtain ⟨n, steps⟩ := st
      simp only [cpp_flag_step, c_flag_step]
      by_cases hn : arg argv i = "--n" ∧ i + 1 < argv.length
      · obtain ⟨v, hv⟩ := Option.isSome_iff_exists.mp (hi hn.2 (Or.inl hn.1))
        by_cases hs : arg argv i = "--steps" ∧ i + 1 < argv.length
        · simp [hn, hs, hv]
        · simp [hn, hs, hv]
      · by_cases hs : arg argv i = "--steps" ∧ i + 1 < argv.length
        · obtain ⟨v, hv⟩ := Option.isSome_iff_exists.mp (hi hs.2 (Or.inr hs.1))
          simp [hn, hs, hv]
        · simp [hn, hs]
    rw [hstep]
    exact ih (fun t ht => hconv t (List.mem_cons_of_mem _ ht)) _

theorem cpp_flag_loop_none (stoi : String → Option Int) (argv : List String) (is : List Nat) :
    is.foldl (cpp_flag_step stoi argv) none = none := by
  induction is with
  | nil => rfl
  | cons i is ih => rw [List.foldl_cons]; exact ih

/-- In the C++ flag loop a flag that stands nowhere with a value after it leaves
the value found on entry. -/
theorem cpp_flag_loop_absent (stoi : String → Option Int) (argv : List String) (is : List Nat)
    (st : Int × Int) (r : Int × Int)
    (h : is.foldl (cpp_flag_step stoi argv) (some st) = some r) :
    ((∀ i ∈ is, ¬ (arg argv i = "--n" ∧ i + 1 < argv.length)) → r.1 = st.1)
    ∧ ((∀ i ∈ is, ¬ (arg argv i = "--steps" ∧ i + 1 < argv.length)) → r.2 = st.2) := by
  induction is generalizing st with
  | nil =>
    simp only [List.foldl_nil, Option.some.injEq] at h
    subst h
    exact ⟨fun _ => rfl, fun _ => rfl⟩
  | cons i is ih =>
    rw [List.foldl_cons] at h
    cases hst : cpp_flag_step stoi argv (some st) i with
    | none =>
      rw [hst, cpp_flag_loop_none] at h
      exact absurd h (by simp)
    | some st1 =>
      rw [hst] at h
      obtain ⟨ih1, ih2⟩ := ih st1 h
      obtain ⟨n, steps⟩ := st
      constructor
      · intro hno
        have hi := hno i (List.mem_cons_self _ _)
        rw [ih1 (fun t ht => hno t (List.mem_cons_of_mem _ ht))]
        simp only [cpp_flag_step, if_neg hi] at hst
        split at hst
        · exact absurd hst (by simp)
        · simp only [Option.some.injEq] at hst
          rw [← hst]
      · intro hno
        have hi := hno i (List.mem_cons_self _ _)
        rw [ih2 (fun t ht => hno t (List.mem_cons_of_mem _ ht))]
        simp only [cpp_flag_step, if_neg hi] at hst
        split at hst
        · exact absurd hst (by simp)
        · simp only [Option.some.injEq] at hst
          rw [← hst]

/-- In the C flag loop a flag that stands nowhere with a value after it leaves
the value found on entry. -/
theorem c_flag_loop_absent (flag : String) (conv : String → Int) (argv : List String)
    (is : List Nat) (a : Int)
    (hno : ∀ i ∈ is, ¬ (arg argv i = flag ∧ i + 1 < argv.length)) :
    is.foldl (fun a i => if arg argv i = flag ∧ i + 1 < argv.length
      then conv (arg argv (i + 1)) else a) a = a := by
  induction is with
  | nil => rfl
  | cons i is ih =>
    rw [List.foldl_cons, if_neg (hno i (List.mem_cons_self _ _))]
    exact ih (fun t ht => hno t (List.mem_cons_of_mem _ ht))

/-- The C++ entry point keeps the default of a flag that stands nowhere with a
value after it, whenever it returns. -/
theorem cpp_main_args_defaults (stoi : String → Option Int) (argv : List String) (r : Int × Int)
    (h : cpp_main_args stoi argv = some r) :
    ((∀ i, ¬ (arg argv i = "--n" ∧ i + 1 < argv.length)) → r.1 = 100)
    ∧ ((∀ i, ¬ (arg argv i = "--steps" ∧ i + 1 < argv.length)) → r.2 = 100) :=
  ⟨fun hno => (cpp_flag_loop_absent stoi argv _ (100, 100) r h).1 (fun i _ => hno i),
   fun hno => (cpp_flag_loop_absent stoi argv _ (100, 100) r h).2 (fun i _ => hno i)⟩

end Arguments

section ArgumentClaims

/-- C12 (the code at the failing input).  With the arguments `--n 50` the C
entry point ends with `n = 50` and `steps = 50`: the positional read of
`argv[2]` (nbody.c line 57) has taken the value of `--n` for `steps`, so the
default `100` is lost, while the C++ entry point ends with `n = 50` and
`steps = 100`.  With `--steps 30` the C entry point ends with `n = 0`
(`atoi` of the text `--steps`) and the C++ entry point with `n = 100`. -/
theorem c_main_args_absent_flag_loses_default :
    c_main_args atoi ["./nbody", "--n", "50"] = (50, 50)
    ∧ cpp_main_args stoi ["./nbody", "--n", "50"] = some (50, 100)
    ∧ c_main_args atoi ["./nbody", "--steps", "30"] = (0, 30)
    ∧ cpp_main_args stoi ["./nbody", "--steps", "30"] = some (100, 30) := by
  decide

/-- The value after the last flag with a value wins: when a flag stands
several times with a value after it, the value configured is the one converted
from the argument after the last such place, for `--n` and for `--steps`, in
the C entry point (any `atoi`) and in the C++ entry point (any `std::stoi`; it
returns when every conversion it makes succeeds).  In the flag loops a flag
that is the final argument changes nothing: that pass of either loop is the
identity, and a flag loop that meets no flag with a value after it leaves the
value it found.  What the C entry point has done to that value before its
flag loop runs is not covered here. -/
theorem last_flag_occurrence_wins (atoi : String → Int) (stoi : String → Option Int)
    (argv : List String) :
    (∀ k, last_valued_occurrence "--n" argv k →
        (c_main_args atoi argv).1 = atoi (arg argv (k + 1)))
    ∧ (∀ k, last_valued_occurrence "--steps" argv k →
        (c_main_args atoi argv).2 = atoi (arg argv (k + 1)))
    ∧ ((∀ i, 1 ≤ i → i + 1 < argv.length → (arg argv i = "--n" ∨ arg argv i = "--steps") →
          (stoi (arg argv (i + 1))).isSome) →
        (∃ r, cpp_main_args stoi argv = some r)
        ∧ (∀ k, last_valued_occurrence "--n" argv k →
            (cpp_main_args stoi argv).map Prod.fst = stoi (arg argv (k + 1)))
        ∧ (∀ k, last_valued_occurrence "--steps" argv k →
            (cpp_main_args stoi argv).map Prod.snd = stoi (arg argv (k + 1))))
    ∧ (∀ st, c_flag_step atoi argv st (argv.length - 1) = st
        ∧ cpp_flag_step stoi argv (some st) (argv.length - 1) = some st)
    ∧ (∀ st, ((∀ i, i + 1 < argv.length → arg argv i ≠ "--n") →
          (c_flag_loop atoi argv st).1 = st.1)
        ∧ ((∀ i, i + 1 < argv.length → arg argv i ≠ "--steps") →
          (c_flag_loop atoi argv st).2 = st.2)) := by
  refine ⟨fun k hk => ?_, fun k hk => ?_, fun hconv => ?_, fun st => ?_, fun st => ⟨?_, ?_⟩⟩
  · rw [c_main_args, c_flag_loop, c_flag_loop_fst]
    exact flag_loop_last "--n" atoi argv k _ hk
  · rw [c_main_args, c_flag_loop, c_flag_loop_snd]
    exact flag_loop_last "--steps" atoi argv k _ hk
  · have hc : cpp_main_args stoi argv
        = some ((List.range' 1 (argv.length - 1)).foldl
            (c_flag_step (fun s => (stoi s).getD 0) argv) (100, 100)) := by
      apply cpp_flag_loop_eq
      intro i hi h2 hf
      rw [List.mem_range'_1] at hi
      exact hconv i hi.1 h2 hf
    refine ⟨⟨_, hc⟩, fun k hk => ?_, fun k hk => ?_⟩
    · rw [hc, Option.map_some', c_flag_loop_fst,
        flag_loop_last "--n" (fun s => (stoi s).getD 0) argv k _ hk]
      obtain ⟨v, hv⟩ := Option.isSome_iff_exists.mp (hconv k hk.1 hk.2.1 (Or.inl hk.2.2.1))
      simp [hv]
    · rw [hc, Option.map_some', c_flag_loop_snd,
        flag_loop_last "--steps" (fun s => (stoi s).getD 0) argv k _ hk]
      obtain ⟨v, hv⟩ := Option.isSome_iff_exists.mp (hconv k hk.1 hk.2.1 (Or.inr hk.2.2.1))
      simp [hv]
  · have hlast : ¬ (argv.length - 1 + 1 < argv.length) := by omega
    obtain ⟨n, steps⟩ := st
    simp [c_flag_step, cpp_flag_step, hlast]
  · intro hno
    rw [c_flag_loop, c_flag_loop_fst]
    exact c_flag_loop_absent "--n" atoi argv _ _ (fun i _ h => hno i h.2 h.1)
  · intro hno
    rw [c_flag_loop, c_flag_loop_snd]
    exact c_flag_loop_absent "--steps" atoi argv _ _ (fun i _ h => hno i h.2 h.1)

/-- Instance of the theorem above on concrete data. -/
theorem last_flag_occurrence_wins_witness :
    last_valued_occurrence "--n" ["./nbody", "--n", "5", "--steps", "3", "--n", "7", "--n"] 5
    ∧ (c_main_args atoi ["./nbody", "--n", "5", "--steps", "3", "--n", "7", "--n"]).1
        = atoi (arg ["./nbody", "--n", "5", "--steps", "3", "--n", "7", "--n"] (5 + 1))
    ∧ atoi (arg ["./nbody", "--n", "5", "--steps", "3", "--n", "7", "--n"] (5 + 1)) = 7 :=
  ⟨by decide,
    (last_flag_occurrence_wins atoi stoi
      ["./nbody", "--n", "5", "--steps", "3", "--n", "7", "--n"]).1 5 (by decide),
    by decide⟩

end ArgumentClaims

section InitializerLemmas

variable {R : Type} [OfScientific R] {G : Type}

theorem getElem?_set_const (a : Planet R) (qs : List (Planet R)) (i j : Nat) :
    (qs.set i a)[j]? = if j = i then (qs[j]?).map (fun _ => a) else qs[j]? :=
  getElem?_set_upd (fun _ => a) qs i j

/-- A loop that threads a generator state and writes record `i` on pass `i`. -/
theorem init_loop (B : G × List (Planet R) → Nat → G × List (Planet R)) (S : Nat → G)
    (P : Nat → Planet R) (hB : ∀ l i, B (S i, l) i = (S (i + 1), l.set i (P i)))
    (mem : List (Planet R)) (k : Nat) :
    (List.range k).foldl B (S 0, mem)
      = (S k, (List.range k).foldl (fun l i => l.set i ((fun i _ => P i) i (body l i))) mem) := by
  induction k with
  | zero => rfl
  | succ k ih =>
    rw [List.range_succ, List.foldl_append, List.foldl_append, ih]
    simp only [List.foldl_cons, List.foldl_nil, hB]

theorem init_loop_getElem? (B : G × List (Planet R) → Nat → G × List (Planet R)) (S : Nat → G)
    (P : Nat → Planet R) (hB : ∀ l i, B (S i, l) i = (S (i + 1), l.set i (P i)))
    (mem : List (Planet R)) (k j : Nat) :
    ((List.range k).foldl B (S 0, mem)).1 = S k
    ∧ ((List.range k).foldl B (S 0, mem)).2[j]?
        = if j < k then (mem[j]?).map (fun _ => P j) else mem[j]? := by
  rw [init_loop B S P hB mem k]
  exact ⟨rfl, foldl_set_getElem? (fun i _ => P i) mem k j⟩

theorem state_before_succ {V : Type} (call : Nat → G → V × G) (g : G) (k : Nat) :
    state_before call g (k + 1) = (call k (state_before call g k)).2 := rfl

variable [Add R] [Sub R] [Mul R] [Div R] [Neg R] [IntCast R]

/-- The record the C initializer writes at index `i`, from the values of the
calls number `7 i` to `7 i + 6` of `rand()`. -/
theorem c_init_body_eq (rand : G → Int × G) (RAND_MAX : Int) (g : G) (l : List (Planet R))
    (i : Nat) :
    c_init_body rand RAND_MAX (state_before (fun _ => rand) g (7 * i), l) i
      = (state_before (fun _ => rand) g (7 * (i + 1)),
         l.set i
          ⟨c_position RAND_MAX (draw (fun _ => rand) g (7 * i)),
           c_position RAND_MAX (draw (fun _ => rand) g (7 * i + 1)),
           c_position RAND_MAX (draw (fun _ => rand) g (7 * i + 2)),
           c_velocity RAND_MAX (draw (fun _ => rand) g (7 * i + 3)),
           c_velocity RAND_MAX (draw (fun _ => rand) g (7 * i + 4)),
           c_velocity RAND_MAX (draw (fun _ => rand) g (7 * i + 5)),
           c_mass RAND_MAX (draw (fun _ => rand) g (7 * i + 6))⟩) := by
  have e : 7 * (i + 1) = 7 * i + 7 := by ring
  rw [e]
  rfl

theorem cpp_call_mod (sample : R → R → G → R × G) (i : Nat) :
    cpp_call sample (7 * i) = sample (-100.0) 100.0
    ∧ cpp_call sample (7 * i + 1) = sample (-100.0) 100.0
    ∧ cpp_call sample (7 * i + 2) = sample (-100.0) 100.0
    ∧ cpp_call sample (7 * i + 3) = sample (-1.0) 1.0
    ∧ cpp_call sample (7 * i + 4) = sample (-1.0) 1.0
    ∧ cpp_call sample (7 * i + 5) = sample (-1.0) 1.0
    ∧ cpp_call sample (7 * i + 6) = sample 1.0 10.0 := by
  have h0 : 7 * i % 7 = 0 := by omega
  have h1 : (7 * i + 1) % 7 = 1 := by omega
  have h2 : (7 * i + 2) % 7 = 2 := by omega
  have h3 : (7 * i + 3) % 7 = 3 := by omega
  have h4 : (7 * i + 4) % 7 = 4 := by omega
  have h5 : (7 * i + 5) % 7 = 5 := by omega
  have h6 : (7 * i + 6) % 7 = 6 := by omega
  simp [cpp_call, h0, h1, h2, h3, h4, h5, h6]

theorem cpp_init_body_eq (sample : R → R → G → R × G) (g : G) (l : List (Planet R)) (i : Nat) :
    cpp_init_body sample (-100.0) 100.0 (-1.0) 1.0 1.0 10.0
        (state_before (cpp_call sample) g (7 * i), l) i
      = (state_before (cpp_call sample) g (7 * (i + 1)),
         l.set i
          ⟨draw (cpp_call sample) g (7 * i), draw (cpp_call sample) g (7 * i + 1),
           draw (cpp_call sample) g (7 * i + 2), draw (cpp_call sample) g (7 * i + 3),
           draw (cpp_call sample) g (7 * i + 4), draw (cpp_call sample) g (7 * i + 5),
           draw (cpp_call sample) g (7 * i + 6)⟩) := by
  have e : 7 * (i + 1) = 7 * i + 7 := by ring
  obtain ⟨c0, c1, c2, c3, c4, c5, c6⟩ := cpp_call_mod sample i
  rw [e]
  simp only [draw, state_before_succ, c0, c1, c2, c3, c4, c5, c6, cpp_init_body]

end InitializerLemmas

section InitializerResults

variable {R : Type} [Add R] [Sub R] [Mul R] [Div R] [Neg R] [OfScientific R] [IntCast R]
variable {G : Type}

/-- The record that the C initializer builds from the calls `7 i, ..., 7 i + 6`
of `rand()`. -/
theorem c_init_spec (rand : G → Int × G) (RAND_MAX : Int) (mem : List (Planet R)) (n : Int)
    (g : G) (j : Nat) :
    (c_init rand RAND_MAX mem n g).1 = state_before (fun _ => rand) g (7 * n.toNat)
    ∧ (c_init rand RAND_MAX mem n g).2[j]?
        = if j < n.toNat then (mem[j]?).map (fun _ =>
            (⟨c_position RAND_MAX (draw (fun _ => rand) g (7 * j)),
              c_position RAND_MAX (draw (fun _ => rand) g (7 * j + 1)),
              c_position RAND_MAX (draw (fun _ => rand) g (7 * j + 2)),
              c_velocity RAND_MAX (draw (fun _ => rand) g (7 * j + 3)),
              c_velocity RAND_MAX (draw (fun _ => rand) g (7 * j + 4)),
              c_velocity RAND_MAX (draw (fun _ => rand) g (7 * j + 5)),
              c_mass RAND_MAX (draw (fun _ => rand) g (7 * j + 6))⟩ : Planet R))
          else mem[j]? :=
  init_loop_getElem? (c_init_body rand RAND_MAX)
    (fun i => state_before (fun _ => rand) g (7 * i)) _
    (fun l i => c_init_body_eq rand RAND_MAX g l i) mem n.toNat j

theorem cpp_init_spec (sample : R → R → G → R × G) (n : Int) (g : G) (j : Nat) :
    (cpp_init sample n g).1 = state_before (cpp_call sample) g (7 * n.toNat)
    ∧ (cpp_init sample n g).2[j]?
        = if j < n.toNat then ((List.replicate n.toNat (default : Planet R))[j]?).map (fun _ =>
            (⟨draw (cpp_call sample) g (7 * j), draw (cpp_call sample) g (7 * j + 1),
              draw (cpp_call sample) g (7 * j + 2), draw (cpp_call sample) g (7 * j + 3),
              draw (cpp_call sample) g (7 * j + 4), draw (cpp_call sample) g (7 * j + 5),
              draw (cpp_call sample) g (7 * j + 6)⟩ : Planet R))
          else (List.replicate n.toNat (default : Planet R))[j]? :=
  init_loop_getElem? (cpp_init_body sample (-100.0) 100.0 (-1.0) 1.0 1.0 10.0)
    (fun i => state_before (cpp_call sample) g (7 * i)) _
    (fun l i => cpp_init_body_eq sample g l i) _ n.toNat j

theorem length_init_loop (B : G × List (Planet R) → Nat → G × List (Planet R))
    (hB : ∀ st i, (B st i).2.length = st.2.length) (st : G × List (Planet R)) (is : List Nat) :
    (is.foldl B st).2.length = st.2.length := by
  induction is generalizing st with
  | nil => rfl
  | cons i is ih => rw [List.foldl_cons, ih, hB]

theorem length_c_init (rand : G → Int × G) (RAND_MAX : Int) (mem : List (Planet R)) (n : Int)
    (g : G) : (c_init rand RAND_MAX mem n g).2.length = mem.length :=
  length_init_loop _ (fun st i => by simp [c_init_body]) _ _

theorem length_cpp_init (sample : R → R → G → R × G) (n : Int) (g : G) :
    (cpp_init (R := R) sample n g).2.length = n.toNat := by
  rw [cpp_init, length_init_loop _ (fun st i => by simp [cpp_init_body])]
  simp

theorem body_c_init (rand : G → Int × G) (RAND_MAX : Int) (mem : List (Planet R)) (N : Nat)
    (g : G) (i : Nat) (hmem : mem.length = N) (hi : i < N) :
    body (c_init rand RAND_MAX mem N g).2 i
      = ⟨c_position RAND_MAX (draw (fun _ => rand) g (7 * i)),
         c_position RAND_MAX (draw (fun _ => rand) g (7 * i + 1)),
         c_position RAND_MAX (draw (fun _ => rand) g (7 * i + 2)),
         c_velocity RAND_MAX (draw (fun _ => rand) g (7 * i + 3)),
         c_velocity RAND_MAX (draw (fun _ => rand) g (7 * i + 4)),
         c_velocity RAND_MAX (draw (fun _ => rand) g (7 * i + 5)),
         c_mass RAND_MAX (draw (fun _ => rand) g (7 * i + 6))⟩ := by
  have hm : i < mem.length := by omega
  rw [body_eq, (c_init_spec rand RAND_MAX mem N g i).2]
  simp [hi, List.getElem?_eq_getElem hm]

theorem body_cpp_init (sample : R → R → G → R × G) (N : Nat) (g : G) (i : Nat) (hi : i < N) :
    body (cpp_init (R := R) sample N g).2 i
      = ⟨draw (cpp_call sample) g (7 * i), draw (cpp_call sample) g (7 * i + 1),
         draw (cpp_call sample) g (7 * i + 2), draw (cpp_call sample) g (7 * i + 3),
         draw (cpp_call sample) g (7 * i + 4), draw (cpp_call sample) g (7 * i + 5),
         draw (cpp_call sample) g (7 * i + 6)⟩ := by
  rw [body_eq, (cpp_init_spec sample N g i).2]
  simp [hi]

end InitializerResults

section InitializerRanges

variable {R : Type} [LinearOrderedField R] {G : Type}

theorem unit_ranges (u : R) (h0 : 0 ≤ u) (h1 : u ≤ 1) :
    (-100 ≤ u * 200.0 - 100.0 ∧ u * 200.0 - 100.0 ≤ 100)
    ∧ (-1 ≤ u * 2.0 - 1.0 ∧ u * 2.0 - 1.0 ≤ 1)
    ∧ (1 ≤ u * 9.0 + 1.0 ∧ u * 9.0 + 1.0 ≤ 10) := by
  have e1 : (200.0 : R) = 200 := by norm_num
  have e2 : (100.0 : R) = 100 := by norm_num
  have e3 : (2.0 : R) = 2 := by norm_num
  have e4 : (1.0 : R) = 1 := by norm_num
  have e5 : (9.0 : R) = 9 := by norm_num
  rw [e1, e2, e3, e4, e5]
  refine ⟨⟨by linarith, by linarith⟩, ⟨by linarith, by linarith⟩, by linarith, by linarith⟩

theorem c_scaled_ranges (RAND_MAX r : Int) (hmax : 0 < RAND_MAX) (hr0 : 0 ≤ r)
    (hr1 : r ≤ RAND_MAX) :
    (-100 ≤ (c_position RAND_MAX r : R) ∧ (c_position RAND_MAX r : R) ≤ 100)
    ∧ (-1 ≤ (c_velocity RAND_MAX r : R) ∧ (c_velocity RAND_MAX r : R) ≤ 1)
    ∧ (1 ≤ (c_mass RAND_MAX r : R) ∧ (c_mass RAND_MAX r : R) ≤ 10) := by
  have hM : (0 : R) < (RAND_MAX : R) := by exact_mod_cast hmax
  have h0 : (0 : R) ≤ (r : R) / (RAND_MAX : R) :=
    div_nonneg (by exact_mod_cast hr0) hM.le
  have h1 : (r : R) / (RAND_MAX : R) ≤ 1 := (div_le_one hM).mpr (by exact_mod_cast hr1)
  exact unit_ranges _ h0 h1

/-- C14. In the C initializer, with `RAND_MAX` positive: for every value `r`
with `0 ≤ r ≤ RAND_MAX` the position expression lies in `[-100, 100]`, the
velocity expression in `[-1, 1]` and the mass expression in `[1, 10]`; hence,
when `rand()` only returns such values, every initialized body has its
coordinates in these ranges and a mass greater than `0`.  Exact arithmetic:
any linear ordered field. -/
theorem c_init_ranges (rand : G → Int × G) (RAND_MAX : Int) (mem : List (Planet R)) (N : Nat)
    (g : G) (i : Nat) (r : Int) (hmax : 0 < RAND_MAX) (hr0 : 0 ≤ r) (hr1 : r ≤ RAND_MAX)
    (hrand : ∀ s, 0 ≤ (rand s).1 ∧ (rand s).1 ≤ RAND_MAX) (hmem : mem.length = N)
    (hi : i < N) :
    ((-100 ≤ (c_position RAND_MAX r : R) ∧ (c_position RAND_MAX r : R) ≤ 100)
      ∧ (-1 ≤ (c_velocity RAND_MAX r : R) ∧ (c_velocity RAND_MAX r : R) ≤ 1)
      ∧ (1 ≤ (c_mass RAND_MAX r : R) ∧ (c_mass RAND_MAX r : R) ≤ 10))
    ∧ (-100 ≤ (body (c_init rand RAND_MAX mem N g).2 i).x
        ∧ (body (c_init rand RAND_MAX mem N g).2 i).x ≤ 100)
    ∧ (-100 ≤ (body (c_init rand RAND_MAX mem N g).2 i).y
        ∧ (body (c_init rand RAND_MAX mem N g).2 i).y ≤ 100)
    ∧ (-100 ≤ (body (c_init rand RAND_MAX mem N g).2 i).z
        ∧ (body (c_init rand RAND_MAX mem N g).2 i).z ≤ 100)
    ∧ (-1 ≤ (body (c_init rand RAND_MAX mem N g).2 i).vx
        ∧ (body (c_init rand RAND_MAX mem N g).2 i).vx ≤ 1)
    ∧ (-1 ≤ (body (c_init rand RAND_MAX mem N g).2 i).vy
        ∧ (body (c_init rand RAND_MAX mem N g).2 i).vy ≤ 1)
    ∧ (-1 ≤ (body (c_init rand RAND_MAX mem N g).2 i).vz
        ∧ (body (c_init rand RAND_MAX mem N g).2 i).vz ≤ 1)
    ∧ (1 ≤ (body (c_init rand RAND_MAX mem N g).2 i).mass
        ∧ (body (c_init rand RAND_MAX mem N g).2 i).mass ≤ 10)
    ∧ 0 < (body (c_init rand RAND_MAX mem N g).2 i).mass := by
  have hd : ∀ k, 0 ≤ draw (fun _ => rand) g k ∧ draw (fun _ => rand) g k ≤ RAND_MAX :=
    fun k => hrand _
  have hs : ∀ k, (-100 ≤ (c_position RAND_MAX (draw (fun _ => rand) g k) : R)
        ∧ (c_position RAND_MAX (draw (fun _ => rand) g k) : R) ≤ 100)
      ∧ (-1 ≤ (c_velocity RAND_MAX (draw (fun _ => rand) g k) : R)
        ∧ (c_velocity RAND_MAX (draw (fun _ => rand) g k) : R) ≤ 1)
      ∧ (1 ≤ (c_mass RAND_MAX (draw (fun _ => rand) g k) : R)
        ∧ (c_mass RAND_MAX (draw (fun _ => rand) g k) : R) ≤ 10) :=
    fun k => c_scaled_ranges RAND_MAX _ hmax (hd k).1 (hd k).2
  rw [body_c_init rand RAND_MAX mem N g i hmem hi]
  refine ⟨c_scaled_ranges RAND_MAX r hmax hr0 hr1, (hs _).1, (hs _).1, (hs _).1, (hs _).2.1,
    (hs _).2.1, (hs _).2.1, (hs _).2.2, ?_⟩
  exact lt_of_lt_of_le one_pos (hs _).2.2.1

/-- Instance of the theorem above on concrete data. -/
theorem c_init_ranges_witness :
    (0 : Int) < 32767 ∧ (0 : Int) ≤ 5 ∧ (5 : Int) ≤ 32767
    ∧ (∀ s : Nat, 0 ≤ (((s % 32768 : Nat) : Int), s + 1).1
        ∧ (((s % 32768 : Nat) : Int), s + 1).1 ≤ 32767)
    ∧ 0 < (body (c_init (R := ℚ) (fun s : Nat => (((s % 32768 : Nat) : Int), s + 1)) 32767
          (List.replicate 3 default) (3 : Nat) 40000).2 1).mass :=
  have hrand : ∀ s : Nat, 0 ≤ (((s % 32768 : Nat) : Int), s + 1).1
      ∧ (((s % 32768 : Nat) : Int), s + 1).1 ≤ 32767 := fun s => by
    constructor <;> simp <;> omega
  ⟨by decide, by decide, by decide, hrand,
    (c_init_ranges (R := ℚ) (fun s : Nat => (((s % 32768 : Nat) : Int), s + 1)) 32767
      (List.replicate 3 default) 3 40000 1 5 (by decide) (by decide) (by decide) hrand
      (by decide) (by decide)).2.2.2.2.2.2.2.2⟩

end InitializerRanges

section InitializerOrder

variable {R : Type} [Add R] [Sub R] [Mul R] [Div R] [Neg R] [OfScientific R] [IntCast R]
variable {G : Type}

/-- C15. The initializer consumes the pseudo-random stream in a fixed order:
for every `N` and every `i < N`, the fields `x, y, z, vx, vy, vz, mass` of body
`i` are computed from the calls number `7 i, 7 i + 1, ..., 7 i + 6` (counted
from `0`), and the generator is left in the state that follows `7 N` calls.
In the C code a call is a call of `rand()`; in the C++ code a call is a call
of one of the three distributions on `gen`. -/
theorem initializer_draw_order (rand : G → Int × G) (RAND_MAX : Int)
    (sample : R → R → G → R × G) (mem : List (Planet R)) (N : Nat) (g : G) (i : Nat)
    (hmem : mem.length = N) (hi : i < N) :
    (body (c_init rand RAND_MAX mem N g).2 i
        = ⟨c_position RAND_MAX (draw (fun _ => rand) g (7 * i)),
           c_position RAND_MAX (draw (fun _ => rand) g (7 * i + 1)),
           c_position RAND_MAX (draw (fun _ => rand) g (7 * i + 2)),
           c_velocity RAND_MAX (draw (fun _ => rand) g (7 * i + 3)),
           c_velocity RAND_MAX (draw (fun _ => rand) g (7 * i + 4)),
           c_velocity RAND_MAX (draw (fun _ => rand) g (7 * i + 5)),
           c_mass RAND_MAX (draw (fun _ => rand) g (7 * i + 6))⟩
      ∧ (c_init rand RAND_MAX mem N g).1 = state_before (fun _ => rand) g (7 * N)
      ∧ (c_init rand RAND_MAX mem N g).2.length = N)
    ∧ (body (cpp_init (R := R) sample N g).2 i
        = ⟨draw (cpp_call sample) g (7 * i), draw (cpp_call sample) g (7 * i + 1),
           draw (cpp_call sample) g (7 * i + 2), draw (cpp_call sample) g (7 * i + 3),
           draw (cpp_call sample) g (7 * i + 4), draw (cpp_call sample) g (7 * i + 5),
           draw (cpp_call sample) g (7 * i + 6)⟩
      ∧ (cpp_init (R := R) sample N g).1 = state_before (cpp_call sample) g (7 * N)
      ∧ (cpp_init (R := R) sample N g).2.length = N) := by
  refine ⟨⟨body_c_init rand RAND_MAX mem N g i hmem hi, ?_, ?_⟩,
    ⟨body_cpp_init sample N g i hi, ?_, ?_⟩⟩
  · simpa using (c_init_spec rand RAND_MAX mem N g 0).1
  · rw [length_c_init, hmem]
  · simpa using (cpp_init_spec sample N g 0).1
  · simpa using length_cpp_init (R := R) sample N g

/-- Instance of the theorem above on concrete data. -/
theorem initializer_draw_order_witness :
    (List.replicate 2 (default : Planet ℚ)).length = 2 ∧ 1 < 2
    ∧ (c_init (R := ℚ) (fun s : Nat => ((s : Int), s + 1)) 32767
          (List.replicate 2 default) (2 : Nat) 0).1
        = state_before (fun _ => (fun s : Nat => ((s : Int), s + 1))) 0 (7 * 2)
    ∧ state_before (fun _ => (fun s : Nat => ((s : Int), s + 1))) 0 (7 * 2) = 14 :=
  ⟨by decide, by decide,
    (initializer_draw_order (R := ℚ) (fun s : Nat => ((s : Int), s + 1)) 32767
      (fun _ _ s => ((s : ℚ), s + 1)) (List.replicate 2 default) 2 0 1
      (by decide) (by decide)).1.2.1,
    by decide⟩

end InitializerOrder

section Momentum

variable {R : Type} [Field R]

/-- A double sum over ordered pairs of distinct indices whose terms cancel in
pairs is zero. -/
theorem sum_pairs_cancel (g : Nat → Nat → R) (h : ∀ i j, g i j + g j i = 0) (n : Nat) :
    ∑ i in Finset.range n, ∑ j in (Finset.range n).filter (fun j => j ≠ i), g i j = 0 := by
  induction n with
  | zero => simp
  | succ n ih =>
    rw [Finset.sum_range_succ]
    have h1 : ∀ i ∈ Finset.range n,
        ∑ j in (Finset.range (n + 1)).filter (fun j => j ≠ i), g i j
          = g i n + ∑ j in (Finset.range n).filter (fun j => j ≠ i), g i j := by
      intro i hi
      have hne : n ≠ i := by
        have := Finset.mem_range.mp hi
        omega
      rw [Finset.range_succ, Finset.filter_insert, if_pos hne, Finset.sum_insert (by simp)]
    have h2 : (Finset.range (n + 1)).filter (fun j => j ≠ n) = Finset.range n := by
      ext j
      simp only [Finset.mem_filter, Finset.mem_range]
      omega
    rw [Finset.sum_congr rfl h1, h2, Finset.sum_add_distrib, ih, add_zero,
      ← Finset.sum_add_distrib]
    exact Finset.sum_eq_zero (fun i _ => h i n)

theorem r2_symm (ps : List (Planet R)) (i j : Nat) : r2 ps i j = r2 ps j i := by
  simp only [r2]
  ring

theorem weighted_pair_term_cancel (sqrt : R → R) (ps : List (Planet R)) (c : Planet R → R)
    (i j : Nat) :
    (body ps i).mass * pair_term sqrt ps i j (c (body ps j) - c (body ps i))
      + (body ps j).mass * pair_term sqrt ps j i (c (body ps i) - c (body ps j)) = 0 := by
  simp only [pair_term, r2_symm ps j i]
  ring

/-- The mass-weighted sum of one velocity coordinate over the first `n` bodies. -/
theorem momentum_coordinate (sqrt : R → R) (ps : List (Planet R)) (dt : R)
    (c : Planet R → R) (v : Planet R → R) (f : R × R × R → R)
    (hv : ∀ p a, v (kick p a dt) = v p + f a * dt)
    (hf : ∀ i, f (force_on sqrt ps ps.length i)
      = ∑ j in (Finset.range ps.length).filter (fun j => j ≠ i),
          pair_term sqrt ps i j (c (body ps j) - c (body ps i))) :
    ∑ i in Finset.range ps.length,
        (body (compute_forces sqrt ps ps.length dt) i).mass
          * v (body (compute_forces sqrt ps ps.length dt) i)
      = ∑ i in Finset.range ps.length, (body ps i).mass * v (body ps i) := by
  have hterm : ∀ i ∈ Finset.range ps.length,
      (body (compute_forces sqrt ps ps.length dt) i).mass
          * v (body (compute_forces sqrt ps ps.length dt) i)
        = (body ps i).mass * v (body ps i)
          + dt * ∑ j in (Finset.range ps.length).filter (fun j => j ≠ i),
              (body ps i).mass * pair_term sqrt ps i j (c (body ps j) - c (body ps i)) := by
    intro i hi
    have hi2 : i < ps.length := Finset.mem_range.mp hi
    rw [body_compute_forces sqrt ps _ dt i (by simpa using hi2) hi2, hv, hf,
      ← Finset.mul_sum]
    simp only [kick]
    ring
  rw [Finset.sum_congr rfl hterm, Finset.sum_add_distrib, ← Finset.mul_sum,
    sum_pairs_cancel _ (fun i j => weighted_pair_term_cancel sqrt ps c i j), mul_zero, add_zero]

/-- C16. The force pass conserves total momentum for any number of bodies:
the sum over all bodies of `mass * velocity` is the same after
`compute_forces` as before, coordinate by coordinate.  Exact arithmetic: any
field, any function `sqrt`. -/
theorem compute_forces_conserves_momentum (sqrt : R → R) (planets : List (Planet R)) (dt : R) :
    ∑ i in Finset.range planets.length,
        (body (compute_forces sqrt planets planets.length dt) i).mass
          * (body (compute_forces sqrt planets planets.length dt) i).vx
      = ∑ i in Finset.range planets.length, (body planets i).mass * (body planets i).vx
    ∧ ∑ i in Finset.range planets.length,
        (body (compute_forces sqrt planets planets.length dt) i).mass
          * (body (compute_forces sqrt planets planets.length dt) i).vy
      = ∑ i in Finset.range planets.length, (body planets i).mass * (body planets i).vy
    ∧ ∑ i in Finset.range planets.length,
        (body (compute_forces sqrt planets planets.length dt) i).mass
          * (body (compute_forces sqrt planets planets.length dt) i).vz
      = ∑ i in Finset.range planets.length, (body planets i).mass * (body planets i).vz := by
  have hf := fun i => force_on_exact sqrt planets planets.length i
  simp only [Int.toNat_ofNat] at hf
  refine ⟨?_, ?_, ?_⟩
  · exact momentum_coordinate sqrt planets dt Planet.x Planet.vx (fun a => a.1)
      (fun p a => rfl) (fun i => by rw [hf i])
  · exact momentum_coordinate sqrt planets dt Planet.y Planet.vy (fun a => a.2.1)
      (fun p a => rfl) (fun i => by rw [hf i])
  · exact momentum_coordinate sqrt planets dt Planet.z Planet.vz (fun a => a.2.2)
      (fun p a => rfl) (fun i => by rw [hf i])

end Momentum

section Frames

variable {R : Type} [Add R] [Sub R] [Mul R] [Div R] [OfScientific R]

/-- C17. Frame of the two passes: `compute_forces` leaves the position and the
mass of every body, and the number of bodies, as they are; `update_positions`
leaves the velocity and the mass of every body, and the number of bodies, as
they are.  No law of arithmetic is used. -/
theorem passes_frame (sqrt : R → R) (planets : List (Planet R)) (n : Int) (dt : R) (i : Nat) :
    ((compute_forces sqrt planets n dt).length = planets.length
      ∧ (body (compute_forces sqrt planets n dt) i).x = (body planets i).x
      ∧ (body (compute_forces sqrt planets n dt) i).y = (body planets i).y
      ∧ (body (compute_forces sqrt planets n dt) i).z = (body planets i).z
      ∧ (body (compute_forces sqrt planets n dt) i).mass = (body planets i).mass)
    ∧ ((update_positions planets n dt).length = planets.length
      ∧ (body (update_positions planets n dt) i).vx = (body planets i).vx
      ∧ (body (update_positions planets n dt) i).vy = (body planets i).vy
      ∧ (body (update_positions planets n dt) i).vz = (body planets i).vz
      ∧ (body (update_positions planets n dt) i).mass = (body planets i).mass) := by
  refine ⟨⟨length_compute_forces sqrt planets n dt, ?_⟩,
    ⟨length_update_positions planets n dt, ?_⟩⟩
  · rw [body_eq, compute_forces_getElem?, body_eq]
    by_cases h : i < n.toNat <;> cases planets[i]? <;> simp [h, kick]
  · rw [body_eq, update_positions_getElem?, body_eq]
    by_cases h : i < n.toNat <;> cases planets[i]? <;> simp [h, drift]

/-- C18. The C loop (`compute_forces` then `update_positions`, `dt = 0.01`) and
the loop inlined in the C++ `run_simulation` yield the same store, for every
store, every count `n` and every number of steps. -/
theorem c_loop_eq_cpp_loop (sqrt : R → R) (planets : List (Planet R)) (n steps : Int) :
    main_loop sqrt planets n steps = run_simulation_loop sqrt planets n steps := by
  rfl

end Frames

end NBody
